import Mathlib

/-!
Verification development for the `jepl` query engine (a SQL-like language
over JSON documents that produces time-series metric points).

The definitions below are a shallow embedding of the repository's Go
sources:

* `token.go` — the `Token` enumeration, `Precedence`, the printable forms;
* `eval.go` — the dynamically typed evaluator (`Eval`, `evalBinaryExpr`,
  `evalFC`, `evalFunctionCalls`, `evalMetric`, `EvalSQL`, `inList`);
* `groupby.go` — `FlatStatByGroup`, `Clone`, `CloneExpr`, and the AST
  printer methods (`SelectStatement.String`, `Field.String`, the literal
  `String` methods).

Go's `float64` is modelled by `GoFloat`: an exact rational together with
the three non-finite IEEE values.  All numeric constants appearing in the
theorems below are exactly representable as binary doubles and their
arithmetic stays exact, so no rounding is modelled.  IEEE negative zero is
identified with zero (it influences only the sign of an infinite
quotient, which no theorem below depends on).  Go's `int64` is modelled by
`Int`; none of the statements proved here involves values anywhere near
the wrap-around boundary.

Go mutates the aggregate accumulator stored inside each `Call` node in
place; the embedding threads that mutation by returning the rewritten
expression alongside each result.  Run-time panics (integer division by
zero, nil dereference, failed type assertions) are modelled by the
`Except GoPanic` monad.

The regular-expression engine is an external collaborator of the
repository (spec §6), so the evaluator is parameterized by an arbitrary
match predicate `rexMatch : String → String → Bool`.

The scanner and the recursive-descent parser of the repository are not
among the provided sources (only their tests are); where a claim needs
them they are modelled from the specification, and each such definition
is marked `Modelled from the spec:`.
-/

namespace Jepl

/-! ## Go float64 model -/

/-- Model of a Go `float64`: an exact rational, or one of the three
non-finite IEEE values.  Rounding of finite results is not modelled; all
finite values handled by the theorems in this file are exactly
representable. -/
inductive GoFloat : Type
  | finite (q : ℚ)
  | inf
  | negInf
  | nan
  deriving DecidableEq, Repr

namespace GoFloat

/-- IEEE negation. -/
def neg : GoFloat → GoFloat
  | finite q => finite (-q)
  | inf => negInf
  | negInf => inf
  | nan => nan

/-- IEEE addition (exact on finite operands). -/
def add : GoFloat → GoFloat → GoFloat
  | nan, _ => nan
  | _, nan => nan
  | finite a, finite b => finite (a + b)
  | finite _, inf => inf
  | finite _, negInf => negInf
  | inf, finite _ => inf
  | negInf, finite _ => negInf
  | inf, inf => inf
  | negInf, negInf => negInf
  | inf, negInf => nan
  | negInf, inf => nan

/-- IEEE subtraction: `a - b = a + (-b)` exactly. -/
def sub (a b : GoFloat) : GoFloat := add a (neg b)

/-- IEEE multiplication (exact on finite operands). -/
def mul : GoFloat → GoFloat → GoFloat
  | nan, _ => nan
  | _, nan => nan
  | finite a, finite b => finite (a * b)
  | finite a, inf => if a = 0 then nan else if 0 < a then inf else negInf
  | finite a, negInf => if a = 0 then nan else if 0 < a then negInf else inf
  | inf, finite b => if b = 0 then nan else if 0 < b then inf else negInf
  | negInf, finite b => if b = 0 then nan else if 0 < b then negInf else inf
  | inf, inf => inf
  | negInf, negInf => inf
  | inf, negInf => negInf
  | negInf, inf => negInf

/-- IEEE division.  A nonzero finite value divided by (positive) zero is
an infinity of the dividend's sign; `0/0` is NaN.  (Negative zero, which
would flip the sign of the infinite quotient, is identified with zero in
this model.) -/
def div : GoFloat → GoFloat → GoFloat
  | nan, _ => nan
  | _, nan => nan
  | finite a, finite b =>
      if b = 0 then
        if a = 0 then nan else if 0 < a then inf else negInf
      else finite (a / b)
  | finite _, inf => finite 0
  | finite _, negInf => finite 0
  | inf, finite b => if 0 ≤ b then inf else negInf
  | negInf, finite b => if 0 ≤ b then negInf else inf
  | inf, inf => nan
  | inf, negInf => nan
  | negInf, inf => nan
  | negInf, negInf => nan

/-- IEEE equality: NaN is not equal to anything, the infinities are equal
to themselves. -/
def feq : GoFloat → GoFloat → Bool
  | finite a, finite b => a = b
  | inf, inf => true
  | negInf, negInf => true
  | _, _ => false

/-- IEEE strict order: any comparison involving NaN is false. -/
def flt : GoFloat → GoFloat → Bool
  | finite a, finite b => a < b
  | finite _, inf => true
  | negInf, finite _ => true
  | negInf, inf => true
  | _, _ => false

/-- IEEE non-strict order: any comparison involving NaN is false. -/
def fle (a b : GoFloat) : Bool := flt a b || feq a b

/-- `a > b` in IEEE terms. -/
def fgt (a b : GoFloat) : Bool := flt b a

/-- `a ≥ b` in IEEE terms. -/
def fge (a b : GoFloat) : Bool := fle b a

end GoFloat

/-! ## Tokens (`token.go`) -/

/-- The lexical tokens of the language, from `token.go`.  The final two
constructors `GROUP` and `BY` are *modelled from the spec*: the token
enumeration in the provided `token.go` predates the `GROUP BY` support
exercised by the repository's tests, while the spec's token list includes
both keywords. -/
inductive Token : Type
  | ILLEGAL | EOF | WS
  | IDENT | BOUNDPARAM | NUMBER | INTEGER | STRING | BADSTRING | BADESCAPE
  | TRUE | FALSE | REGEX | BADREGEX
  | ADD | SUB | MUL | DIV
  | AND | OR
  | EQ | NEQ | EQREGEX | NEQREGEX | LT | LTE | GT | GTE
  | LBRACKET | LPAREN | RBRACKET | RPAREN | COMMA | COLON | DOUBLECOLON
  | SEMICOLON | DOT
  | ALL | AS | FROM | NI | IN | SELECT | WHERE
  | GROUP | BY
  deriving DecidableEq, Repr

namespace Token

/-- `Token.Precedence` from `token.go`: the operator precedence of a
binary operator token; tokens outside the switch (including `IN` and
`NI`) get the default `0`. -/
def precedence : Token → Nat
  | OR => 1
  | AND => 2
  | EQ | NEQ | EQREGEX | NEQREGEX | LT | LTE | GT | GTE => 3
  | ADD | SUB => 4
  | MUL | DIV => 5
  | _ => 0

/-- The printable form of each token, from the `tokens` array in
`token.go` (entries the array leaves unset print as the empty string). -/
def str : Token → String
  | ILLEGAL => "ILLEGAL"
  | EOF => "EOF"
  | WS => "WS"
  | IDENT => "IDENT"
  | NUMBER => "NUMBER"
  | INTEGER => "INTEGER"
  | STRING => "STRING"
  | BADSTRING => "BADSTRING"
  | BADESCAPE => "BADESCAPE"
  | TRUE => "TRUE"
  | FALSE => "FALSE"
  | REGEX => "REGEX"
  | ADD => "+"
  | SUB => "-"
  | MUL => "*"
  | DIV => "/"
  | AND => "AND"
  | OR => "OR"
  | EQ => "="
  | NEQ => "!="
  | EQREGEX => "=~"
  | NEQREGEX => "!~"
  | LT => "<"
  | LTE => "<="
  | GT => ">"
  | GTE => ">="
  | LBRACKET => "["
  | LPAREN => "("
  | RBRACKET => "]"
  | RPAREN => ")"
  | COMMA => ","
  | COLON => ":"
  | DOUBLECOLON => "::"
  | SEMICOLON => ";"
  | DOT => "."
  | ALL => "ALL"
  | AS => "AS"
  | FROM => "FROM"
  | NI => "NI"
  | IN => "IN"
  | SELECT => "SELECT"
  | WHERE => "WHERE"
  | GROUP => "GROUP"
  | BY => "BY"
  | _ => ""

end Token

/-! ## Run-time panics -/

/-- The Go run-time panics the embedded code can raise. -/
inductive GoPanic : Type
  | parseFailure (found expected : String)
  | nilPointerDereference
  | integerDivideByZero
  | indexOutOfRange
  | interfaceConversion
  deriving DecidableEq, Repr

/-! ## JSON documents -/

/-- A parsed JSON document (the reference JSON model of spec §6).
Numbers are carried as exact rationals, consistent with `GoFloat`. -/
inductive Json : Type
  | obj (fields : List (String × Json))
  | arr (elems : List Json)
  | str (s : String)
  | num (q : ℚ)
  | bool (b : Bool)
  | null
  deriving Repr

/-- Walk an object tree by a key path, as `jsonparser.Get` does for a
list of keys: each step requires an object containing the key. -/
def jsonWalk : Json → List String → Option Json
  | j, [] => some j
  | Json.obj fs, k :: ks =>
      match fs.lookup k with
      | some v => jsonWalk v ks
      | none => none
  | _, _ :: _ => none

/-! ## AST (`groupby.go` / the AST portion of the sources) -/

/-- The mutable accumulator stored inside every `Call` node: running
`result` (float64), running `Count` (int64) and the `First` flag. -/
structure CallState : Type where
  result : GoFloat
  count : Int
  first : Bool
  deriving DecidableEq, Repr

/-- The accumulator state the parser installs in a fresh `Call`
(`first = true, result = 0, count = 0`). -/
def initCallState : CallState := ⟨GoFloat.finite 0, 0, true⟩

/-- Run-time values of the evaluator: Go `interface{}` contents.
`regex` carries the pattern text of a compiled `*regexp.Regexp`;
`null` is the nil interface. -/
inductive Val : Type
  | int (n : Int)
  | num (f : GoFloat)
  | str (s : String)
  | bool (b : Bool)
  | regex (pattern : String)
  | list (vals : List Val)
  | null
  deriving Repr

/-- Expression nodes.  `goNil` models a nil `Expr` interface value: the
Go source stores one as the left operand of a dimension equality when a
dimension evaluates to a value with no matching literal node
(`FlatStatByGroup`'s `default` case) and as the right operand of the
final conjunction when the statement has no `WHERE` condition; printing
such a node dereferences a nil pointer. -/
inductive Expr : Type
  | varRef (val : String) (segments : List String)
  | intLit (n : Int)
  | numLit (f : GoFloat)
  | strLit (s : String)
  | boolLit (b : Bool)
  | regexLit (pattern : String)
  | listLit (vals : List Val)
  | paren (inner : Expr)
  | binary (op : Token) (lhs rhs : Expr)
  | call (name : String) (args : List Expr) (state : CallState)
  | goNil
  deriving Repr

/-- A `SELECT` field: an expression with an optional alias
(`aliasName`; the empty string means no alias, as in Go — the Go field
is called `Alias`, a reserved word here). -/
structure Field : Type where
  expr : Expr
  aliasName : String
  deriving Repr

/-- A `GROUP BY` dimension. -/
structure Dimension : Type where
  expr : Expr
  deriving Repr

/-- A data source (`Measurement`): carries the single identifier. -/
structure Measurement : Type where
  database : String
  deriving DecidableEq, Repr

/-- The select statement, with the `Dimensions` list used by
`FlatStatByGroup`. -/
structure SelectStatement : Type where
  fields : List Field
  sources : List Measurement
  condition : Option Expr
  dimensions : List Dimension
  isRawQuery : Bool
  dedupe : Bool
  deriving Repr

/-! ## The evaluator (`eval.go`) -/

mutual

/-- `reflect.DeepEqual` restricted to the values the evaluator produces:
equal dynamic types with (recursively) equal contents.  Floats compare
with IEEE `==`, so NaN is unequal to itself. -/
def valDeepEq : Val → Val → Bool
  | Val.int a, Val.int b => a == b
  | Val.num a, Val.num b => GoFloat.feq a b
  | Val.str a, Val.str b => a == b
  | Val.bool a, Val.bool b => a == b
  | Val.regex a, Val.regex b => a == b
  | Val.list a, Val.list b => valListDeepEq a b
  | Val.null, Val.null => true
  | _, _ => false

/-- Elementwise `valDeepEq` on lists. -/
def valListDeepEq : List Val → List Val → Bool
  | [], [] => true
  | a :: as', b :: bs' => valDeepEq a b && valListDeepEq as' bs'
  | _, _ => false

end

/-- `inList` from `eval.go`: true iff `array` is a slice holding an
element deep-equal to `val`. -/
def inList (val array : Val) : Bool :=
  match array with
  | Val.list xs => xs.any (fun x => valDeepEq val x)
  | _ => false

/-- The guard `rhs == 0` in both `DIV` branches of `evalBinaryExpr`
compares the right-hand side *interface* value with the untyped constant
`0`, whose default Go type is `int`.  An interface comparison is true
only when the dynamic types agree, and the evaluator only ever stores
`int64` or `float64` numbers in an interface — never an `int` — so this
comparison is false for every value the evaluator can produce.  (The
evaluator-internal test suite confirms the consequences: no test
observes `0.0` from these paths.)  The separate guard inside the
int64-lhs/float64-rhs branch compares a *shadowed* `float64` variable
with `0` and is modelled separately as a real float comparison. -/
def goIfaceEqIntZero : Val → Bool := fun _ => false

/-- `evalBinaryExpr`'s dispatch on the two already-evaluated operands
(`eval.go` lines 139–297).  `rexMatch` is the external regular-expression
matcher (`(*regexp.Regexp).MatchString`).  Integer division by zero is a
Go run-time panic. -/
def evalBinaryOp (rexMatch : String → String → Bool) (op : Token)
    (lhs rhs : Val) : Except GoPanic Val :=
  match lhs with
  | Val.bool lb =>
    let rbOk : Bool × Bool :=
      match rhs with
      | Val.bool b => (b, true)
      | _ => (false, false)
    let rb := rbOk.1
    let ok := rbOk.2
    match op with
    | Token.AND => Except.ok (Val.bool (ok && (lb && rb)))
    | Token.OR => Except.ok (Val.bool (ok && (lb || rb)))
    | Token.EQ => Except.ok (Val.bool (ok && (lb == rb)))
    | Token.NEQ => Except.ok (Val.bool (ok && (lb != rb)))
    | _ => Except.ok Val.null
  | Val.num lf =>
    -- Try the rhs as a float64 or int64 (`rhsf` keeps its zero value
    -- when both assertions fail).
    let rfOk : GoFloat × Bool :=
      match rhs with
      | Val.num f => (f, true)
      | Val.int n => (GoFloat.finite (n : ℚ), true)
      | _ => (GoFloat.finite 0, false)
    let rhsf := rfOk.1
    let ok := rfOk.2
    match op with
    | Token.IN => Except.ok (Val.bool (inList lhs rhs))
    | Token.NI => Except.ok (Val.bool (!inList lhs rhs))
    | Token.EQ => Except.ok (Val.bool (ok && GoFloat.feq lf rhsf))
    | Token.NEQ => Except.ok (Val.bool (ok && !GoFloat.feq lf rhsf))
    | Token.LT => Except.ok (Val.bool (ok && GoFloat.flt lf rhsf))
    | Token.LTE => Except.ok (Val.bool (ok && GoFloat.fle lf rhsf))
    | Token.GT => Except.ok (Val.bool (ok && GoFloat.fgt lf rhsf))
    | Token.GTE => Except.ok (Val.bool (ok && GoFloat.fge lf rhsf))
    | Token.ADD =>
        if !ok then Except.ok Val.null
        else Except.ok (Val.num (GoFloat.add lf rhsf))
    | Token.SUB =>
        if !ok then Except.ok Val.null
        else Except.ok (Val.num (GoFloat.sub lf rhsf))
    | Token.MUL =>
        if !ok then Except.ok Val.null
        else Except.ok (Val.num (GoFloat.mul lf rhsf))
    | Token.DIV =>
        if !ok then Except.ok Val.null
        else if goIfaceEqIntZero rhs then Except.ok (Val.num (GoFloat.finite 0))
        else Except.ok (Val.num (GoFloat.div lf rhsf))
    | _ => Except.ok Val.null
  | Val.int li =>
    match rhs with
    | Val.num rf =>
      -- A float cast is required: both sides proceed as float64, and
      -- the divisor guard compares the shadowed float64 `rhs` with 0.
      let lf := GoFloat.finite (li : ℚ)
      match op with
      | Token.EQ => Except.ok (Val.bool (GoFloat.feq lf rf))
      | Token.NEQ => Except.ok (Val.bool (!GoFloat.feq lf rf))
      | Token.LT => Except.ok (Val.bool (GoFloat.flt lf rf))
      | Token.LTE => Except.ok (Val.bool (GoFloat.fle lf rf))
      | Token.GT => Except.ok (Val.bool (GoFloat.fgt lf rf))
      | Token.GTE => Except.ok (Val.bool (GoFloat.fge lf rf))
      | Token.ADD => Except.ok (Val.num (GoFloat.add lf rf))
      | Token.SUB => Except.ok (Val.num (GoFloat.sub lf rf))
      | Token.MUL => Except.ok (Val.num (GoFloat.mul lf rf))
      | Token.DIV =>
          if GoFloat.feq rf (GoFloat.finite 0) then
            Except.ok (Val.num (GoFloat.finite 0))
          else Except.ok (Val.num (GoFloat.div lf rf))
      | _ => Except.ok Val.null
    | _ =>
      let riOk : Int × Bool :=
        match rhs with
        | Val.int n => (n, true)
        | _ => (0, false)
      let rhsi := riOk.1
      let ok := riOk.2
      match op with
      | Token.IN => Except.ok (Val.bool (inList lhs rhs))
      | Token.NI => Except.ok (Val.bool (!inList lhs rhs))
      | Token.EQ => Except.ok (Val.bool (ok && (li == rhsi)))
      | Token.NEQ => Except.ok (Val.bool (ok && (li != rhsi)))
      | Token.LT => Except.ok (Val.bool (ok && (li < rhsi)))
      | Token.LTE => Except.ok (Val.bool (ok && (li ≤ rhsi)))
      | Token.GT => Except.ok (Val.bool (ok && (rhsi < li)))
      | Token.GTE => Except.ok (Val.bool (ok && (rhsi ≤ li)))
      | Token.ADD =>
          if !ok then Except.ok Val.null else Except.ok (Val.int (li + rhsi))
      | Token.SUB =>
          if !ok then Except.ok Val.null else Except.ok (Val.int (li - rhsi))
      | Token.MUL =>
          if !ok then Except.ok Val.null else Except.ok (Val.int (li * rhsi))
      | Token.DIV =>
          if !ok then Except.ok Val.null
          else if goIfaceEqIntZero rhs then Except.ok (Val.num (GoFloat.finite 0))
          -- Go integer division panics on a zero divisor and truncates
          -- toward zero otherwise.
          else if rhsi = 0 then Except.error GoPanic.integerDivideByZero
          else Except.ok (Val.int (Int.tdiv li rhsi))
      | _ => Except.ok Val.null
  | Val.str ls =>
    match op with
    | Token.IN => Except.ok (Val.bool (inList lhs rhs))
    | Token.NI => Except.ok (Val.bool (!inList lhs rhs))
    | Token.EQ =>
        match rhs with
        | Val.str rs => Except.ok (Val.bool (ls == rs))
        | _ => Except.ok (Val.bool false)
    | Token.NEQ =>
        match rhs with
        | Val.str rs => Except.ok (Val.bool (ls != rs))
        | _ => Except.ok (Val.bool false)
    | Token.EQREGEX =>
        match rhs with
        | Val.regex p => Except.ok (Val.bool (rexMatch p ls))
        | _ => Except.ok (Val.bool false)
    | Token.NEQREGEX =>
        match rhs with
        | Val.regex p => Except.ok (Val.bool (!rexMatch p ls))
        | _ => Except.ok (Val.bool false)
    | _ => Except.ok Val.null
  | _ => Except.ok Val.null

/-- The leaf lookup of `Eval`'s `VarRef` case: walk the document by the
segment path; JSON numbers come back as float64
(`jsonparser.ParseFloat`), strings and booleans pass through, anything
else (absent key, object, array, null) yields the nil interface. -/
def varRefEval (j : Json) (segments : List String) : Val :=
  match jsonWalk j segments with
  | some (Json.num q) => Val.num (GoFloat.finite q)
  | some (Json.str s) => Val.str s
  | some (Json.bool b) => Val.bool b
  | _ => Val.null

/-- `Eval` from `eval.go`.  The document is `none` when Go is handed a
nil `*string` (as `evalMetric` does); dereferencing it in the `VarRef`
case is a nil-pointer panic.  The rewritten expression returned alongside
the value records the in-place mutation of `Call` accumulators: reading
a `Call` returns its finalized value and resets the accumulator to
`(result = 0.0, first = true, count = 0)`. -/
def eval (rexMatch : String → String → Bool) :
    Expr → Option Json → Except GoPanic (Val × Expr)
  | Expr.goNil, _ => Except.ok (Val.null, Expr.goNil)
  | Expr.call name args st, _ =>
      let ret : Val :=
        if name = "count" then Val.num (GoFloat.finite (st.count : ℚ))
        else if name = "avg" then
          if 0 < st.count then
            Val.num (GoFloat.div st.result (GoFloat.finite (st.count : ℚ)))
          else Val.num st.result
        else Val.num st.result
      Except.ok (ret, Expr.call name args initCallState)
  | Expr.binary op lhs rhs, js => do
      let (lv, lhs') ← eval rexMatch lhs js
      let (rv, rhs') ← eval rexMatch rhs js
      let v ← evalBinaryOp rexMatch op lv rv
      Except.ok (v, Expr.binary op lhs' rhs')
  | Expr.boolLit b, _ => Except.ok (Val.bool b, Expr.boolLit b)
  | Expr.listLit vs, _ => Except.ok (Val.list vs, Expr.listLit vs)
  | Expr.intLit n, _ => Except.ok (Val.int n, Expr.intLit n)
  | Expr.numLit f, _ => Except.ok (Val.num f, Expr.numLit f)
  | Expr.paren inner, js => do
      let (v, inner') ← eval rexMatch inner js
      Except.ok (v, Expr.paren inner')
  | Expr.regexLit p, _ => Except.ok (Val.regex p, Expr.regexLit p)
  | Expr.strLit s, _ => Except.ok (Val.str s, Expr.strLit s)
  | Expr.varRef val segments, js =>
      match js with
      | none => Except.error GoPanic.nilPointerDereference
      | some j => Except.ok (varRefEval j segments, Expr.varRef val segments)

/-- The float64 the `max`/`min` accumulators extract from an argument
value (`var thisret float64` keeps its zero value for a non-numeric
argument). -/
def argAsFloat : Val → GoFloat
  | Val.int n => GoFloat.finite (n : ℚ)
  | Val.num f => f
  | _ => GoFloat.finite 0

/-- `evalFC` from `eval.go`: accumulate one document into every `Call`
beneath a field expression.  `Count` is incremented before the dispatch
on the call name, so it advances for every aggregate name (including
`count`, `first` and `last`, whose names have no case of their own in
the source).  `sum`/`avg` add a numeric argument to `result`; `max` and
`min` seed `result` on the first observation and keep the running
extremum afterwards.  Accessing `Args[0]` of an argument-less call is an
index-out-of-range panic. -/
def evalFC (rexMatch : String → String → Bool) :
    Expr → Option Json → Except GoPanic Expr
  | Expr.call name args st, js =>
      let st := { st with count := st.count + 1 }
      if name = "sum" ∨ name = "avg" then
        match args with
        | [] => Except.error GoPanic.indexOutOfRange
        | a :: rest => do
          let (v, a') ← eval rexMatch a js
          let st :=
            match v with
            | Val.int n =>
                { st with result := GoFloat.add st.result (GoFloat.finite (n : ℚ)) }
            | Val.num f => { st with result := GoFloat.add st.result f }
            | _ => st
          Except.ok (Expr.call name (a' :: rest) st)
      else if name = "max" then
        match args with
        | [] => Except.error GoPanic.indexOutOfRange
        | a :: rest => do
          let (v, a') ← eval rexMatch a js
          let thisret := argAsFloat v
          let st :=
            if st.first then { st with result := thisret, first := false }
            else if GoFloat.fgt thisret st.result then { st with result := thisret }
            else st
          Except.ok (Expr.call name (a' :: rest) st)
      else if name = "min" then
        match args with
        | [] => Except.error GoPanic.indexOutOfRange
        | a :: rest => do
          let (v, a') ← eval rexMatch a js
          let thisret := argAsFloat v
          let st :=
            if st.first then { st with result := thisret, first := false }
            else if GoFloat.flt thisret st.result then { st with result := thisret }
            else st
          Except.ok (Expr.call name (a' :: rest) st)
      else Except.ok (Expr.call name args st)
  | Expr.binary op lhs rhs, js => do
      let lhs' ← evalFC rexMatch lhs js
      let rhs' ← evalFC rexMatch rhs js
      Except.ok (Expr.binary op lhs' rhs')
  | e, _ => Except.ok e

/-- `evalFunctionCalls`: accumulate a document into every field of the
statement, in declaration order. -/
def evalFunctionCalls (rexMatch : String → String → Bool)
    (s : SelectStatement) (js : Option Json) :
    Except GoPanic SelectStatement := do
  let fields' ← s.fields.mapM (fun f => do
    let e' ← evalFC rexMatch f.expr js
    Except.ok { f with expr := e' })
  Except.ok { s with fields := fields' }

/-! ## Identifier and string quoting

`QuoteIdent` and `QuoteString` are referenced by the printer methods in
the provided sources but defined in a file that is not among them. -/

/-- An ASCII identifier character: letter, digit or underscore. -/
def isIdentChar (c : Char) : Bool :=
  (('a' ≤ c && c ≤ 'z') || ('A' ≤ c && c ≤ 'Z') || c.isDigit || c = '_')

/-- A valid bare identifier starts with an ASCII letter or underscore
and continues with identifier characters. -/
def isValidIdent (s : String) : Bool :=
  match s.data with
  | [] => false
  | c :: cs =>
      (('a' ≤ c && c ≤ 'z') || ('A' ≤ c && c ≤ 'Z') || c = '_') &&
        cs.all isIdentChar

/-- ASCII lower-casing of one character (`strings.ToLower` on the
identifier alphabet). -/
def lowerChar (c : Char) : Char :=
  if 'A' ≤ c && c ≤ 'Z' then Char.ofNat (c.toNat + 32) else c

/-- ASCII lower-casing of a string. -/
def lowerStr (s : String) : String := String.mk (s.data.map lowerChar)

/-- `Lookup` from `token.go`: the keyword table, consulted
case-insensitively.  `group` and `by` are included per the spec's token
list (the spec-modelled scanner and printer must agree on them). -/
def lookupKeyword (ident : String) : Token :=
  match lowerStr ident with
  | "all" => Token.ALL
  | "as" => Token.AS
  | "from" => Token.FROM
  | "ni" => Token.NI
  | "in" => Token.IN
  | "select" => Token.SELECT
  | "where" => Token.WHERE
  | "and" => Token.AND
  | "or" => Token.OR
  | "true" => Token.TRUE
  | "false" => Token.FALSE
  | "group" => Token.GROUP
  | "by" => Token.BY
  | _ => Token.IDENT

/-- Escape a quoted identifier segment: backslash and double quote are
backslash-escaped. -/
def escapeIdentSegment (s : String) : String :=
  s.data.foldl (fun acc c =>
    if c = '\\' then acc ++ "\\\\"
    else if c = '"' then acc ++ "\\\x22"
    else acc.push c) ""

/-- Modelled from the spec: `QuoteIdent` (its definition is not among
the provided sources).  Identifiers that are keywords or are not valid
bare identifiers are wrapped in double quotes with `"` and backslash
escaped; every non-final segment of a multi-segment path is quoted;
empty segments stay unquoted; segments are joined with `.` — matching
the printer rules of spec §4.2 and the repository's `TestQuoteIdent`
table. -/
def quoteIdent (segments : List String) : String :=
  let n := segments.length
  let parts := segments.enum.map (fun (i, s) =>
    let needs := lookupKeyword s ≠ Token.IDENT || !isValidIdent s
    if s ≠ "" && (needs || i + 1 < n) then
      "\x22" ++ escapeIdentSegment s ++ "\x22"
    else s)
  String.intercalate "." parts

/-- Modelled from the spec: `QuoteString` (its definition is not among
the provided sources).  String literals print in single quotes; the
backslash, the single quote and the newline are escaped — matching spec
§4.2 and the repository's `TestQuote` table. -/
def quoteString (s : String) : String :=
  let body := s.data.foldl (fun acc c =>
    if c = '\\' then acc ++ "\\\\"
    else if c = '\x27' then acc ++ "\\\x27"
    else if c = '\n' then acc ++ "\\n"
    else acc.push c) ""
  "\x27" ++ body ++ "\x27"

/-! ## The printer (the `String` methods of the AST sources) -/

/-- Decimal rendering of a float64 with a fixed number of fractional
digits (`strconv.FormatFloat(v, 'f', prec, 64)` for finite values;
non-finite values print as Go prints them).  Rounding is to the nearest
multiple of `10^-prec`; a decimal tie cannot arise from an actual binary
double, so the tie-breaking direction is immaterial. -/
def formatFloatPrec (prec : Nat) (f : GoFloat) : String :=
  match f with
  | GoFloat.inf => "+Inf"
  | GoFloat.negInf => "-Inf"
  | GoFloat.nan => "NaN"
  | GoFloat.finite q =>
      let scaled : Int := round (q * ((10 : ℚ) ^ prec))
      let mag : Nat := scaled.natAbs
      let ip : Nat := mag / 10 ^ prec
      let fp : Nat := mag % 10 ^ prec
      let fpStr := toString fp
      let pad := String.mk (List.replicate (prec - fpStr.length) '0')
      (if scaled < 0 then "-" else "") ++ toString ip ++
        (if prec = 0 then "" else "." ++ pad ++ fpStr)

/-- An element of a `ListLiteral` prints with `QuoteIdent` for strings,
`%f` (six fractional digits) for floats, `%d` for integers, and nothing
for any other value — `ListLiteral.String` in the sources. -/
def listElemString (v : Val) : String :=
  match v with
  | Val.str s => quoteIdent [s]
  | Val.num f => formatFloatPrec 6 f
  | Val.int n => toString n
  | _ => ""

mutual

/-- The canonical printer: the `String` methods of the expression nodes.
Variable references print their full name through `QuoteIdent`; number
literals print with three fractional digits; binary expressions place
one ASCII space around the operator's printable form; calls print their
lower-cased name and comma-separated arguments.  Printing a nil `Expr`
interface dereferences a nil pointer. -/
def exprString : Expr → Except GoPanic String
  | Expr.varRef val _ => Except.ok (quoteIdent [val])
  | Expr.intLit n => Except.ok (toString n)
  | Expr.numLit f => Except.ok (formatFloatPrec 3 f)
  | Expr.strLit s => Except.ok (quoteString s)
  | Expr.boolLit b => Except.ok (if b then "true" else "false")
  | Expr.regexLit p =>
      Except.ok ("/" ++ p.replace "/" "\\/" ++ "/")
  | Expr.listLit vals =>
      Except.ok ("[" ++ String.intercalate ", " (vals.map listElemString) ++ "]")
  | Expr.paren inner => do
      let s ← exprString inner
      Except.ok ("(" ++ s ++ ")")
  | Expr.binary op lhs rhs => do
      let ls ← exprString lhs
      let rs ← exprString rhs
      Except.ok (ls ++ " " ++ op.str ++ " " ++ rs)
  | Expr.call name args _ => do
      let ss ← exprStringList args
      Except.ok (name ++ "(" ++ String.intercalate ", " ss ++ ")")
  | Expr.goNil => Except.error GoPanic.nilPointerDereference

/-- Print a list of call arguments. -/
def exprStringList : List Expr → Except GoPanic (List String)
  | [] => Except.ok []
  | e :: es => do
      let s ← exprString e
      let ss ← exprStringList es
      Except.ok (s :: ss)

end

/-- `Field.String`: the expression, then ` AS ` and the quoted alias
when one is set. -/
def fieldString (f : Field) : Except GoPanic String := do
  let s ← exprString f.expr
  if f.aliasName = "" then Except.ok s
  else Except.ok (s ++ " AS " ++ quoteIdent [f.aliasName])

/-- `Fields.String`: fields joined with `, `. -/
def fieldsString (fs : List Field) : Except GoPanic String := do
  let parts ← fs.mapM fieldString
  Except.ok (String.intercalate ", " parts)

/-- `Sources.String`: measurement names joined with `, `. -/
def sourcesString (ms : List Measurement) : String :=
  String.intercalate ", " (ms.map (fun m => m.database))

/-- `SelectStatement.String` exactly as in the provided sources:
`SELECT` and the fields, a `FROM` clause when sources are present, a
`WHERE` clause when a condition is present — and nothing else (in
particular no `GROUP BY` clause). -/
def stmtString (s : SelectStatement) : Except GoPanic String := do
  let fs ← fieldsString s.fields
  let base := "SELECT " ++ fs
  let base :=
    if 0 < s.sources.length then base ++ " FROM " ++ sourcesString s.sources
    else base
  match s.condition with
  | some c => do
      let cs ← exprString c
      Except.ok (base ++ " WHERE " ++ cs)
  | none => Except.ok base

/-! ## Deep copy (`groupby.go`: `Clone`, `CloneExpr`) -/

/-- The zero value of the accumulator fields of a Go `Call` struct:
`result = 0.0`, `Count = 0`, `First = false`.  This is the state
`CloneExpr` leaves in a freshly built `Call` (it sets only `Name` and
`Args`). -/
def zeroCallState : CallState := ⟨GoFloat.finite 0, 0, false⟩

mutual

/-- `CloneExpr`: a deep copy of the expression.  A nil expression stays
nil; a cloned `Call` is rebuilt from its name and cloned arguments only,
so its accumulator holds the struct's zero value; a `ListLiteral` has no
case in the source's type switch and reaches `panic("unreachable")`
(modelled as a failed interface conversion panic). -/
def cloneExpr : Expr → Except GoPanic Expr
  | Expr.goNil => Except.ok Expr.goNil
  | Expr.binary op lhs rhs => do
      let l ← cloneExpr lhs
      let r ← cloneExpr rhs
      Except.ok (Expr.binary op l r)
  | Expr.boolLit b => Except.ok (Expr.boolLit b)
  | Expr.call name args _ => do
      let args' ← cloneExprList args
      Except.ok (Expr.call name args' zeroCallState)
  | Expr.intLit n => Except.ok (Expr.intLit n)
  | Expr.numLit f => Except.ok (Expr.numLit f)
  | Expr.paren inner => do
      let e ← cloneExpr inner
      Except.ok (Expr.paren e)
  | Expr.regexLit p => Except.ok (Expr.regexLit p)
  | Expr.strLit s => Except.ok (Expr.strLit s)
  | Expr.varRef val segments => Except.ok (Expr.varRef val segments)
  | Expr.listLit _ => Except.error GoPanic.interfaceConversion

/-- Clone a list of call arguments. -/
def cloneExprList : List Expr → Except GoPanic (List Expr)
  | [] => Except.ok []
  | e :: es => do
      let e' ← cloneExpr e
      let es' ← cloneExprList es
      Except.ok (e' :: es')

end

/-- The field-cloning loop of `Clone` (append one deep-copied field at
a time, keeping the alias). -/
def cloneFields : List Field → Except GoPanic (List Field)
  | [] => Except.ok []
  | f :: fs => do
      let e ← cloneExpr f.expr
      let rest ← cloneFields fs
      Except.ok ((⟨e, f.aliasName⟩ : Field) :: rest)

/-- The dimension-cloning loop of `Clone`. -/
def cloneDims : List Dimension → Except GoPanic (List Dimension)
  | [] => Except.ok []
  | d :: ds => do
      let e ← cloneExpr d.expr
      let rest ← cloneDims ds
      Except.ok ((⟨e⟩ : Dimension) :: rest)

/-- The nil-guarded condition clone of `Clone`. -/
def cloneCondition : Option Expr → Except GoPanic (Option Expr)
  | none => Except.ok none
  | some c => do
      let c' ← cloneExpr c
      Except.ok (some c')

/-- `Clone`: a deep copy of the statement — fresh field, dimension and
source lists with deep-copied expressions, a deep-copied condition, and
the value-copied `IsRawQuery`/`Dedupe` flags. -/
def cloneStmt (s : SelectStatement) : Except GoPanic SelectStatement := do
  let cond ← cloneCondition s.condition
  let fields' ← cloneFields s.fields
  let dims' ← cloneDims s.dimensions
  Except.ok { s with
    fields := fields'
    dimensions := dims'
    sources := s.sources.map (fun m => ⟨m.database⟩)
    condition := cond }

/-! ## The group flattener (`groupby.go`: `FlatStatByGroup`) -/

/-- Wrap a dimension's run-time value in the matching literal node; the
source's type switch covers strings, floats and booleans, and leaves the
`lhs` variable nil for anything else. -/
def wrapLit : Val → Option Expr
  | Val.str s => some (Expr.strLit s)
  | Val.num f => some (Expr.numLit f)
  | Val.bool b => some (Expr.boolLit b)
  | _ => none

/-- The `root.LHS == nil` test of the flattener's loop (`root` is always
a `*BinaryExpr` there; the dummy start node has a nil `LHS`). -/
def exprLHSIsGoNil : Expr → Bool
  | Expr.binary _ Expr.goNil _ => true
  | _ => false

/-- The body of the flattener's dimension loop: evaluate the dimension
against the document (mutating it in place), build the equality
`value_literal EQ dim_expr`, and conjoin it — replacing the dummy root
(recognized by its nil `LHS`) with the `true AND …` seed on the first
dimension. -/
def flatDimStep (rexMatch : String → String → Bool) (j : Json)
    (acc : Expr × List Dimension) (dim : Dimension) :
    Except GoPanic (Expr × List Dimension) := do
  let (res, dimExpr') ← eval rexMatch dim.expr (some j)
  let lhs := (wrapLit res).getD Expr.goNil
  let rhs := Expr.binary Token.EQ lhs dimExpr'
  let root' :=
    if exprLHSIsGoNil acc.1 then
      Expr.binary Token.AND (Expr.boolLit true) rhs
    else Expr.binary Token.AND acc.1 rhs
  Except.ok (root', acc.2 ++ [(⟨dimExpr'⟩ : Dimension)])

/-- One document's pass of `FlatStatByGroup`: starting from the dummy
root, conjoin one `value_literal EQ dim_expr` equality per dimension in
order, then conjoin the statement's condition as the final term.  The
evaluation of each dimension expression mutates it in place, so the
rewritten dimension list is returned alongside the predicate. -/
def flatDocPredicate (rexMatch : String → String → Bool)
    (dims : List Dimension) (cond : Option Expr) (j : Json) :
    Except GoPanic (Expr × List Dimension) := do
  let start : Expr × List Dimension :=
    (Expr.binary Token.ILLEGAL Expr.goNil Expr.goNil, [])
  let (root, dims') ← dims.foldlM (flatDimStep rexMatch j) start
  Except.ok (Expr.binary Token.AND root (cond.getD Expr.goNil), dims')

/-- Insert-or-replace for the string-keyed maps (a later insertion with
the same key wins, as in a Go map; insertion order stands in for Go's
unspecified iteration order). -/
def upsert {α : Type} (k : String) (v : α) :
    List (String × α) → List (String × α)
  | [] => [(k, v)]
  | (k', v') :: rest =>
      if k' = k then (k, v) :: rest else (k', v') :: upsert k v rest

/-- The body of the flattener's document loop: build the document's
predicate, store it under its canonical printed form, and carry the
in-place-rewritten dimension list forward. -/
def flatGroupStep (rexMatch : String → String → Bool)
    (acc : List (String × Expr) × SelectStatement) (j : Json) :
    Except GoPanic (List (String × Expr) × SelectStatement) := do
  let (root, dims') ←
    flatDocPredicate rexMatch acc.2.dimensions acc.2.condition j
  let key ← exprString root
  Except.ok (upsert key root acc.1, { acc.2 with dimensions := dims' })

/-- `FlatStatByGroup`: for each document build the per-document
predicate and store it in `groups` under its canonical printed form;
then map every group to a clone of the statement whose condition is the
group's predicate. -/
def flatStatByGroup (rexMatch : String → String → Bool)
    (s : SelectStatement) (docs : List Json) :
    Except GoPanic (List (String × SelectStatement)) := do
  let (groups, final) ← docs.foldlM (flatGroupStep rexMatch) ([], s)
  groups.mapM (fun kv => do
    let c ← cloneStmt final
    Except.ok (kv.1, { c with condition := some kv.2 }))

/-! ## Metric extraction and the driver (`eval.go`) -/

/-- An emitted metric point: the float value and the wall-clock epoch
seconds. -/
structure Point : Type where
  metric : GoFloat
  ts : Int
  deriving DecidableEq, Repr

/-- `Points` is a list of points. -/
abbrev Points : Type := List Point

/-- `evalMetric`: evaluate every field expression against a nil document
and type-assert the result to `float64` (a non-float value is an
interface-conversion panic).  `now` stands in for `time.Now().Unix()`.
The statement is returned with its call accumulators reset. -/
def evalMetric (rexMatch : String → String → Bool) (now : Int)
    (s : SelectStatement) : Except GoPanic (List Point × SelectStatement) := do
  let (pts, fields') ← s.fields.foldlM
    (fun (acc : List Point × List Field) f => do
      let (v, e') ← eval rexMatch f.expr none
      match v with
      | Val.num g =>
          Except.ok (acc.1 ++ [⟨g, now⟩], acc.2 ++ [{ f with expr := e' }])
      | _ => Except.error GoPanic.interfaceConversion)
    ([], [])
  Except.ok (pts, { s with fields := fields' })

/-! ## Scanner and parser

The repository's `scanner.go` and `parser.go` are not among the provided
sources (only their tests are), so this section is *modelled from the
spec* (§4.1, §4.2 and the grammar of §6).  The model covers the portion
of the language the claims exercise: identifiers and keywords, unsigned
integer and decimal literals, the operator and punctuation tokens, the
precedence-climbing expression parser, calls, dotted variable
references, and the `SELECT … FROM … WHERE … GROUP BY …` statement
shape.  String, regex, list and bound-parameter literals, signed
numbers, source positions, and the post-parse validation pass of §4.2
are not modelled — no claim below depends on them. -/

/-- A scanned token with its literal text. -/
structure Tok : Type where
  tok : Token
  lit : String
  deriving DecidableEq, Repr

/-- Modelled from the spec: the scanner loop.  Whitespace is consumed
(the parser skips `WS` transparently); identifiers are looked up in the
keyword table case-insensitively; a numeric literal is `NUMBER` iff a
decimal point appeared, else `INTEGER`; unrecognized bytes become
`ILLEGAL`. -/
def lexLoop : Nat → List Char → List Tok
  | 0, _ => [⟨Token.ILLEGAL, ""⟩]
  | _ + 1, [] => [⟨Token.EOF, ""⟩]
  | fuel + 1, c :: cs =>
    if c = ' ' || c = '\t' || c = '\n' || c = '\r' then lexLoop fuel cs
    else if (('a' ≤ c && c ≤ 'z') || ('A' ≤ c && c ≤ 'Z') || c = '_') then
      let word := (c :: cs).takeWhile isIdentChar
      let rest := (c :: cs).dropWhile isIdentChar
      let lit := String.mk word
      let tok := lookupKeyword lit
      (if tok = Token.IDENT then (⟨Token.IDENT, lit⟩ : Tok) else ⟨tok, ""⟩) ::
        lexLoop fuel rest
    else if c.isDigit then
      let ds := (c :: cs).takeWhile Char.isDigit
      let rest := (c :: cs).dropWhile Char.isDigit
      match rest with
      | '.' :: d :: rest' =>
        if d.isDigit then
          let ds2 := (d :: rest').takeWhile Char.isDigit
          let rest2 := (d :: rest').dropWhile Char.isDigit
          ⟨Token.NUMBER, String.mk ds ++ "." ++ String.mk ds2⟩ :: lexLoop fuel rest2
        else ⟨Token.INTEGER, String.mk ds⟩ :: lexLoop fuel rest
      | _ => ⟨Token.INTEGER, String.mk ds⟩ :: lexLoop fuel rest
    else
      match c, cs with
      | '=', '~' :: rest => ⟨Token.EQREGEX, ""⟩ :: lexLoop fuel rest
      | '=', rest => ⟨Token.EQ, ""⟩ :: lexLoop fuel rest
      | '!', '=' :: rest => ⟨Token.NEQ, ""⟩ :: lexLoop fuel rest
      | '!', '~' :: rest => ⟨Token.NEQREGEX, ""⟩ :: lexLoop fuel rest
      | '<', '>' :: rest => ⟨Token.NEQ, ""⟩ :: lexLoop fuel rest
      | '<', '=' :: rest => ⟨Token.LTE, ""⟩ :: lexLoop fuel rest
      | '>', '=' :: rest => ⟨Token.GTE, ""⟩ :: lexLoop fuel rest
      | ':', ':' :: rest => ⟨Token.DOUBLECOLON, ""⟩ :: lexLoop fuel rest
      | '+', rest => ⟨Token.ADD, ""⟩ :: lexLoop fuel rest
      | '-', rest => ⟨Token.SUB, ""⟩ :: lexLoop fuel rest
      | '*', rest => ⟨Token.MUL, ""⟩ :: lexLoop fuel rest
      | '/', rest => ⟨Token.DIV, ""⟩ :: lexLoop fuel rest
      | '<', rest => ⟨Token.LT, ""⟩ :: lexLoop fuel rest
      | '>', rest => ⟨Token.GT, ""⟩ :: lexLoop fuel rest
      | '(', rest => ⟨Token.LPAREN, ""⟩ :: lexLoop fuel rest
      | ')', rest => ⟨Token.RPAREN, ""⟩ :: lexLoop fuel rest
      | '[', rest => ⟨Token.LBRACKET, ""⟩ :: lexLoop fuel rest
      | ']', rest => ⟨Token.RBRACKET, ""⟩ :: lexLoop fuel rest
      | ',', rest => ⟨Token.COMMA, ""⟩ :: lexLoop fuel rest
      | ';', rest => ⟨Token.SEMICOLON, ""⟩ :: lexLoop fuel rest
      | '.', rest => ⟨Token.DOT, ""⟩ :: lexLoop fuel rest
      | ':', rest => ⟨Token.COLON, ""⟩ :: lexLoop fuel rest
      | c, rest => ⟨Token.ILLEGAL, String.mk [c]⟩ :: lexLoop fuel rest

/-- Tokenize a whole input (each loop step consumes at least one
character, so `length + 1` fuel always suffices to reach `EOF`). -/
def lex (s : String) : List Tok := lexLoop (s.length + 1) s.data

/-- A structured parse error: the offending token and the expected
description (source positions are not modelled). -/
structure ParseError : Type where
  found : String
  expected : String
  deriving DecidableEq, Repr

/-- `tokstr` from `token.go`: a token's literal if present, else its
printable form. -/
def tokDesc (t : Tok) : String := if t.lit ≠ "" then t.lit else t.tok.str

/-- Modelled from the spec: the binding levels of §4.2, from lowest to
highest — `OR`; `AND`; the comparators together with `IN`/`NI`;
`ADD`/`SUB`; `MUL`/`DIV`.  (This is the parser model's table; the
provided `token.go` has its own `Precedence` function, embedded above as
`Token.precedence`, which differs on `IN`/`NI`.) -/
def specPrecedence : Token → Nat
  | Token.OR => 1
  | Token.AND => 2
  | Token.EQ | Token.NEQ | Token.EQREGEX | Token.NEQREGEX => 3
  | Token.LT | Token.LTE | Token.GT | Token.GTE => 3
  | Token.IN | Token.NI => 3
  | Token.ADD | Token.SUB => 4
  | Token.MUL | Token.DIV => 5
  | _ => 0

/-- The numeric value of a run of decimal digit characters. -/
def digitsVal (cs : List Char) : Nat :=
  cs.foldl (fun acc c => acc * 10 + (c.toNat - 48)) 0

/-- Integer literal text to a value. -/
def parseIntLit (lit : String) : Int := (digitsVal lit.data : Nat)

/-- Decimal literal text (`digits.digits`) to an exact rational. -/
def parseDecimalLit (lit : String) : ℚ :=
  let ip := lit.data.takeWhile (fun c => c ≠ '.')
  let fp := (lit.data.dropWhile (fun c => c ≠ '.')).drop 1
  (digitsVal ip : ℚ) + (digitsVal fp : ℚ) / ((10 : ℚ) ^ fp.length)

/-- The trailing `{DOT IDENT}` segments of a dotted variable reference. -/
def parseSegs : Nat → List Tok → (List String × List Tok)
  | 0, ts => ([], ts)
  | fuel + 1, ⟨Token.DOT, _⟩ :: ⟨Token.IDENT, lit⟩ :: rest =>
      let (segs, r) := parseSegs fuel rest
      (lit :: segs, r)
  | _ + 1, ts => ([], ts)

mutual

/-- Modelled from the spec: a primary expression — an integer, decimal
or boolean literal, a call (identifier immediately followed by `(`, name
lower-cased, fresh accumulator `first = true, result = 0, count = 0`), a
dotted variable reference (with the split recorded in `Segments`), or a
parenthesized expression. -/
def parsePrimary : Nat → List Tok → Except ParseError (Expr × List Tok)
  | 0, _ => Except.error ⟨"", "fuel"⟩
  | fuel + 1, ts =>
    match ts with
    | ⟨Token.INTEGER, lit⟩ :: rest =>
        Except.ok (Expr.intLit (parseIntLit lit), rest)
    | ⟨Token.NUMBER, lit⟩ :: rest =>
        Except.ok (Expr.numLit (GoFloat.finite (parseDecimalLit lit)), rest)
    | ⟨Token.TRUE, _⟩ :: rest => Except.ok (Expr.boolLit true, rest)
    | ⟨Token.FALSE, _⟩ :: rest => Except.ok (Expr.boolLit false, rest)
    | ⟨Token.IDENT, lit⟩ :: ⟨Token.LPAREN, _⟩ :: rest =>
        (match rest with
        | ⟨Token.RPAREN, _⟩ :: r2 =>
            Except.ok (Expr.call (lowerStr lit) [] initCallState, r2)
        | _ => do
            let (args, r2) ← parseCallArgs fuel rest
            Except.ok (Expr.call (lowerStr lit) args initCallState, r2))
    | ⟨Token.IDENT, lit⟩ :: rest =>
        let (segs, r2) := parseSegs fuel rest
        Except.ok
          (Expr.varRef (String.intercalate "." (lit :: segs)) (lit :: segs), r2)
    | ⟨Token.LPAREN, _⟩ :: rest => do
        let (e, r2) ← parseBinary fuel 1 rest
        match r2 with
        | ⟨Token.RPAREN, _⟩ :: r3 => Except.ok (Expr.paren e, r3)
        | t :: _ => Except.error ⟨tokDesc t, ")"⟩
        | [] => Except.error ⟨"EOF", ")"⟩
    | t :: _ => Except.error ⟨tokDesc t, "identifier, string, number, bool"⟩
    | [] => Except.error ⟨"EOF", "identifier, string, number, bool"⟩

/-- Comma-separated call arguments up to the closing parenthesis. -/
def parseCallArgs : Nat → List Tok → Except ParseError (List Expr × List Tok)
  | 0, _ => Except.error ⟨"", "fuel"⟩
  | fuel + 1, ts => do
    let (e, rest) ← parseBinary fuel 1 ts
    match rest with
    | ⟨Token.COMMA, _⟩ :: r2 => do
        let (es, r3) ← parseCallArgs fuel r2
        Except.ok (e :: es, r3)
    | ⟨Token.RPAREN, _⟩ :: r2 => Except.ok ([e], r2)
    | t :: _ => Except.error ⟨tokDesc t, ")"⟩
    | [] => Except.error ⟨"EOF", ")"⟩

/-- Modelled from the spec: standard precedence climbing.  Parse a
primary, then while the next token is a binary operator whose level is
at least `minPrec`, parse its right operand at level `p + 1` — which
makes every level associate left-to-right. -/
def parseBinary : Nat → Nat → List Tok → Except ParseError (Expr × List Tok)
  | 0, _, _ => Except.error ⟨"", "fuel"⟩
  | fuel + 1, minPrec, ts => do
    let (lhs, rest) ← parsePrimary fuel ts
    parseBinaryLoop fuel minPrec lhs rest

/-- The operator-consuming loop of the precedence climber. -/
def parseBinaryLoop :
    Nat → Nat → Expr → List Tok → Except ParseError (Expr × List Tok)
  | 0, _, _, _ => Except.error ⟨"", "fuel"⟩
  | fuel + 1, minPrec, lhs, ts =>
    match ts with
    | t :: rest =>
        let p := specPrecedence t.tok
        if minPrec ≤ p then do
          let (rhs, r2) ← parseBinary fuel (p + 1) rest
          parseBinaryLoop fuel minPrec (Expr.binary t.tok lhs rhs) r2
        else Except.ok (lhs, ts)
    | [] => Except.ok (lhs, ts)

end

/-- Parse one expression from token position (levels start at 1, so a
non-operator stops the climb). -/
def parseExprToks (fuel : Nat) (ts : List Tok) :
    Except ParseError (Expr × List Tok) :=
  parseBinary fuel 1 ts

/-- `ParseExpr` on source text. -/
def parseExprStr (s : String) : Except ParseError Expr := do
  let (e, _) ← parseExprToks (s.length + 16) (lex s)
  Except.ok e

/-- `field := expr [AS IDENT]`. -/
def parseFieldToks (fuel : Nat) (ts : List Tok) :
    Except ParseError (Field × List Tok) := do
  let (e, rest) ← parseExprToks fuel ts
  match rest with
  | ⟨Token.AS, _⟩ :: ⟨Token.IDENT, lit⟩ :: r2 => Except.ok (⟨e, lit⟩, r2)
  | ⟨Token.AS, _⟩ :: t :: _ => Except.error ⟨tokDesc t, "identifier"⟩
  | _ => Except.ok (⟨e, ""⟩, rest)

/-- `fields := field {, field}`. -/
def parseFieldsToks : Nat → List Tok → Except ParseError (List Field × List Tok)
  | 0, _ => Except.error ⟨"", "fuel"⟩
  | fuel + 1, ts => do
    let (f, rest) ← parseFieldToks fuel ts
    match rest with
    | ⟨Token.COMMA, _⟩ :: r2 => do
        let (fs, r3) ← parseFieldsToks fuel r2
        Except.ok (f :: fs, r3)
    | _ => Except.ok ([f], rest)

/-- `dim := var_ref`, in the `GROUP BY` list. -/
def parseDimsToks : Nat → List Tok → Except ParseError (List Dimension × List Tok)
  | 0, _ => Except.error ⟨"", "fuel"⟩
  | fuel + 1, ts =>
    match ts with
    | ⟨Token.IDENT, lit⟩ :: rest =>
        let (segs, r2) := parseSegs fuel rest
        let d : Dimension :=
          ⟨Expr.varRef (String.intercalate "." (lit :: segs)) (lit :: segs)⟩
        (match r2 with
        | ⟨Token.COMMA, _⟩ :: r3 => do
            let (ds, r4) ← parseDimsToks fuel r3
            Except.ok (d :: ds, r4)
        | _ => Except.ok ([d], r2))
    | t :: _ => Except.error ⟨tokDesc t, "identifier"⟩
    | [] => Except.error ⟨"EOF", "identifier"⟩

/-- Modelled from the spec: `parse_statement` — exactly one
`select_stmt` (`SELECT fields [FROM source] [WHERE expr] [GROUP BY
dimension {, dimension}]`) followed by `EOF`.  The `IsRawQuery` and
`Dedupe` flags are reserved for callers and left `false`; the §4.2
validation pass is not modelled (no claim depends on it). -/
def parseSelectToks (fuel : Nat) (ts : List Tok) :
    Except ParseError SelectStatement := do
  match ts with
  | ⟨Token.SELECT, _⟩ :: afterSelect => do
    let (fields, r1) ← parseFieldsToks fuel afterSelect
    let (sources, r2) ← (
      match r1 with
      | ⟨Token.FROM, _⟩ :: ⟨Token.IDENT, lit⟩ :: r =>
          Except.ok ([(⟨lit⟩ : Measurement)], r)
      | ⟨Token.FROM, _⟩ :: t :: _ =>
          Except.error (⟨tokDesc t, "identifier"⟩ : ParseError)
      | _ => Except.ok ([], r1))
    let (cond, r3) ← (
      match r2 with
      | ⟨Token.WHERE, _⟩ :: r => do
          let (c, r') ← parseExprToks fuel r
          Except.ok (some c, r')
      | _ => Except.ok ((none : Option Expr), r2))
    let (dims, r4) ← (
      match r3 with
      | ⟨Token.GROUP, _⟩ :: ⟨Token.BY, _⟩ :: r => parseDimsToks fuel r
      | ⟨Token.GROUP, _⟩ :: t :: _ =>
          Except.error (⟨tokDesc t, "BY"⟩ : ParseError)
      | _ => Except.ok (([] : List Dimension), r3))
    match r4 with
    | ⟨Token.EOF, _⟩ :: _ =>
        Except.ok
          { fields := fields, sources := sources, condition := cond,
            dimensions := dims, isRawQuery := false, dedupe := false }
    | t :: _ => Except.error ⟨tokDesc t, "EOF"⟩
    | [] => Except.error ⟨"EOF", "EOF"⟩
  | t :: _ => Except.error ⟨tokDesc t, "SELECT"⟩
  | [] => Except.error ⟨"EOF", "SELECT"⟩

/-- `ParseStatement` on source text. -/
def parseStatement (s : String) : Except ParseError SelectStatement :=
  parseSelectToks (s.length + 16) (lex s)

/-! ## The driver (`EvalSQL` in `eval.go`) -/

/-- One document's step of the driver's inner loop: evaluate the
statement's condition against the document (`Eval` on a nil condition
yields the nil interface); a boolean `true` accumulates the document
into every field, any other result (including the warning path for a
non-boolean condition value) leaves the accumulators alone. -/
def evalSQLStep (rexMatch : String → String → Bool)
    (st : SelectStatement) (j : Json) : Except GoPanic SelectStatement := do
  let (v, st1) ←
    match st.condition with
    | some c => do
        let (v, c') ← eval rexMatch c (some j)
        Except.ok (v, { st with condition := some c' })
    | none => Except.ok (Val.null, st)
  match v with
  | Val.bool true => evalFunctionCalls rexMatch st1 (some j)
  | _ => Except.ok st1

/-- `EvalSQL`: parse the text (a parse failure is `panic(err)`), build
the single-entry map keyed by `Condition.String()` — which dereferences
a nil interface when the statement has no `WHERE` clause — replace it by
the flattened map when dimensions are present, then for each entry drive
every document through the predicate/accumulate loop and emit the metric
points.  `now` stands in for the wall clock. -/
def evalSQL (rexMatch : String → String → Bool) (now : Int)
    (sql : String) (docs : List Json) :
    Except GoPanic (List (String × Points)) := do
  match parseStatement sql with
  | Except.error e => Except.error (GoPanic.parseFailure e.found e.expected)
  | Except.ok stmt => do
    let key0 ←
      match stmt.condition with
      | none => Except.error GoPanic.nilPointerDereference
      | some c => exprString c
    let stmts ←
      if 0 < stmt.dimensions.length then flatStatByGroup rexMatch stmt docs
      else Except.ok [(key0, stmt)]
    stmts.mapM (fun ks => do
      let st' ← docs.foldlM (fun st j => evalSQLStep rexMatch st j) ks.2
      let (pts, _) ← evalMetric rexMatch now st'
      Except.ok (ks.1, pts))

/-! ## Auxiliary predicates and observation functions for the theorems -/

/-- The dynamic type tests the binary dispatch cases correspond to. -/
def Val.isBoolV : Val → Bool
  | Val.bool _ => true
  | _ => false

/-- A numeric run-time value (Go `int64` or `float64`). -/
def Val.isNumericV : Val → Bool
  | Val.int _ => true
  | Val.num _ => true
  | _ => false

/-- A string run-time value. -/
def Val.isStrV : Val → Bool
  | Val.str _ => true
  | _ => false

/-- An expression containing no `Call` node (dimension and predicate
expressions satisfy this by the grammar). -/
def callFree : Expr → Bool
  | Expr.call _ _ _ => false
  | Expr.binary _ lhs rhs => callFree lhs && callFree rhs
  | Expr.paren inner => callFree inner
  | _ => true

mutual

/-- Erase every accumulator in an expression (replace each `Call` state
by the parser's initial state): equality of erased expressions is
"equality modulo accumulator state". -/
def stripStates : Expr → Expr
  | Expr.call n args _ => Expr.call n (stripStatesList args) initCallState
  | Expr.binary op lhs rhs => Expr.binary op (stripStates lhs) (stripStates rhs)
  | Expr.paren inner => Expr.paren (stripStates inner)
  | e => e

/-- Erase accumulators in a list of call arguments. -/
def stripStatesList : List Expr → List Expr
  | [] => []
  | e :: es => stripStates e :: stripStatesList es

end

mutual

/-- The accumulator states of every `Call` node in an expression, in
pre-order. -/
def callStates : Expr → List CallState
  | Expr.call _ args st => st :: callStatesList args
  | Expr.binary _ lhs rhs => callStates lhs ++ callStates rhs
  | Expr.paren inner => callStates inner
  | _ => []

/-- Accumulator states across a list of call arguments. -/
def callStatesList : List Expr → List CallState
  | [] => []
  | e :: es => callStates e ++ callStatesList es

end

/-- Erase every accumulator in a statement. -/
def stripStmt (s : SelectStatement) : SelectStatement :=
  { s with
    fields := s.fields.map (fun f => { f with expr := stripStates f.expr })
    dimensions := s.dimensions.map (fun d => ⟨stripStates d.expr⟩)
    condition := s.condition.map stripStates }

/-- The accumulator states of every `Call` node in a statement (fields,
then condition, then dimensions). -/
def stmtCallStates (s : SelectStatement) : List CallState :=
  (s.fields.flatMap (fun f => callStates f.expr)) ++
    ((s.condition.map callStates).getD []) ++
    (s.dimensions.flatMap (fun d => callStates d.expr))

/-! ## The claim-side description of the group flattener

These definitions follow the wording of the claim about
`FlatStatByGroup` (and are *not* translated from the source); the
theorems below compare them with the embedded `flatStatByGroup`.  Two
variants of the per-dimension equality are given: the claim's original
operand order (`dim_expr EQ value_literal`) and the amended order the
code actually builds (`value_literal EQ dim_expr`). -/

/-- The claim's per-dimension conjunct, as written: the dimension
expression compared with its value from the document wrapped in the
matching literal node — `dim_expr EQ value_literal`.  (For a value with
no matching literal node the claim is silent; the nil marker keeps the
definition total, and the theorems' hypotheses exclude that case.) -/
def claimDimEqualityOrig (rexMatch : String → String → Bool)
    (d : Dimension) (j : Json) : Except GoPanic Expr := do
  let (v, _) ← eval rexMatch d.expr (some j)
  Except.ok (Expr.binary Token.EQ d.expr ((wrapLit v).getD Expr.goNil))

/-- The amended per-dimension conjunct: the wrapped value literal on the
left, the dimension expression on the right — `value_literal EQ
dim_expr`. -/
def claimDimEquality (rexMatch : String → String → Bool)
    (d : Dimension) (j : Json) : Except GoPanic Expr := do
  let (v, _) ← eval rexMatch d.expr (some j)
  Except.ok (Expr.binary Token.EQ ((wrapLit v).getD Expr.goNil) d.expr)

/-- The claim's per-document predicate: start from the seed `true`,
conjoin one dimension equality per dimension in order, and conjoin the
original `WHERE` predicate as the final term. -/
def claimGroupPredicate (rexMatch : String → String → Bool)
    (dimEq : (String → String → Bool) → Dimension → Json →
      Except GoPanic Expr)
    (dims : List Dimension) (c : Expr) (j : Json) : Except GoPanic Expr := do
  let eqs ← dims.mapM (fun d => dimEq rexMatch d j)
  Except.ok (Expr.binary Token.AND
    (eqs.foldl (Expr.binary Token.AND) (Expr.boolLit true)) c)

/-- Per document: build the claim's predicate and store it under the
canonical printed form of the predicate as the partition key (a later
document with the same key wins). -/
def claimGroupStep (rexMatch : String → String → Bool)
    (dimEq : (String → String → Bool) → Dimension → Json →
      Except GoPanic Expr)
    (dims : List Dimension) (c : Expr)
    (g : List (String × Expr)) (j : Json) :
    Except GoPanic (List (String × Expr)) := do
  let pred ← claimGroupPredicate rexMatch dimEq dims c j
  let key ← exprString pred
  Except.ok (upsert key pred g)

/-- The claim's flattener: per document build the predicate, store it
under the canonical printed form of the predicate as the partition key
(a later document with the same key wins), and map every key to a
cloned statement carrying that predicate as its condition. -/
def claimFlatByGroup (rexMatch : String → String → Bool)
    (dimEq : (String → String → Bool) → Dimension → Json →
      Except GoPanic Expr)
    (s : SelectStatement) (c : Expr) (docs : List Json) :
    Except GoPanic (List (String × SelectStatement)) := do
  let groups ← docs.foldlM (claimGroupStep rexMatch dimEq s.dimensions c) []
  groups.mapM (fun kv => do
      let cl ← cloneStmt s
      Except.ok (kv.1, { cl with condition := some kv.2 }))

/-! ## Structural induction over expressions -/

/-- Structural induction for `Expr`, with a membership-based hypothesis
for the arguments of a call. -/
theorem Expr.inductionOn {motive : Expr → Prop}
    (hvar : ∀ v s, motive (Expr.varRef v s))
    (hint : ∀ n, motive (Expr.intLit n))
    (hnum : ∀ f, motive (Expr.numLit f))
    (hstr : ∀ s, motive (Expr.strLit s))
    (hbool : ∀ b, motive (Expr.boolLit b))
    (hregex : ∀ p, motive (Expr.regexLit p))
    (hlist : ∀ vs, motive (Expr.listLit vs))
    (hparen : ∀ e, motive e → motive (Expr.paren e))
    (hbinary : ∀ op l r, motive l → motive r → motive (Expr.binary op l r))
    (hcall : ∀ n args st, (∀ a ∈ args, motive a) → motive (Expr.call n args st))
    (hnil : motive Expr.goNil) :
    ∀ e, motive e
  | Expr.varRef v s => hvar v s
  | Expr.intLit n => hint n
  | Expr.numLit f => hnum f
  | Expr.strLit s => hstr s
  | Expr.boolLit b => hbool b
  | Expr.regexLit p => hregex p
  | Expr.listLit vs => hlist vs
  | Expr.paren e =>
      hparen e (Expr.inductionOn hvar hint hnum hstr hbool hregex hlist
        hparen hbinary hcall hnil e)
  | Expr.binary op l r =>
      hbinary op l r
        (Expr.inductionOn hvar hint hnum hstr hbool hregex hlist hparen
          hbinary hcall hnil l)
        (Expr.inductionOn hvar hint hnum hstr hbool hregex hlist hparen
          hbinary hcall hnil r)
  | Expr.call n args st =>
      hcall n args st (fun a ha =>
        Expr.inductionOn hvar hint hnum hstr hbool hregex hlist hparen
          hbinary hcall hnil a)
  | Expr.goNil => hnil
termination_by e => sizeOf e
decreasing_by
  all_goals simp_wf
  all_goals first
    | omega
    | (have h := List.sizeOf_lt_of_mem ha; omega)

/-! ## C1 — division by zero -/

/-- C1.  The claim says a zero divisor yields the float `0.0` and never
an error or panic.  In the code the guard `rhs == 0` compares the
divisor interface against a Go `int` zero and never fires for evaluator
values, so: an integer divided by the integer `0` reaches Go's integer
division and panics; a float divided by a numeric zero divides through
and yields `+Inf`; only an integer divided by the *float* `0.0` takes
the (shadowed, correctly typed) guard and yields `0.0`. -/
theorem divByZero_panics_or_inf (rexMatch : String → String → Bool) :
    eval rexMatch (Expr.binary Token.DIV (Expr.intLit 1) (Expr.intLit 0))
        (some (Json.obj [])) = Except.error GoPanic.integerDivideByZero ∧
    evalBinaryOp rexMatch Token.DIV (Val.int 1) (Val.int 0) =
        Except.error GoPanic.integerDivideByZero ∧
    evalBinaryOp rexMatch Token.DIV (Val.num (GoFloat.finite 1)) (Val.int 0) =
        Except.ok (Val.num GoFloat.inf) ∧
    evalBinaryOp rexMatch Token.DIV (Val.num (GoFloat.finite 1))
        (Val.num (GoFloat.finite 0)) = Except.ok (Val.num GoFloat.inf) ∧
    evalBinaryOp rexMatch Token.DIV (Val.int 4) (Val.num (GoFloat.finite 0)) =
        Except.ok (Val.num (GoFloat.finite 0)) :=
  ⟨rfl, rfl, rfl, rfl, rfl⟩

/-! ## C2 — aggregate accumulation -/

/-- C2.  The spec's accumulation table prescribes, for `first`:
"if `first` set `result = arg`, clear `first`; `count += 1`", and for
`last`: "`result = arg`; `count += 1`".  The code's `evalFC` has no case
for either name, so only the unconditional `Count++` happens: with the
argument `v = 5` present in the document, `result` stays `0` and the
`first` flag stays set. -/
theorem evalFC_first_last_elided (rexMatch : String → String → Bool) :
    evalFC rexMatch
        (Expr.call "first" [Expr.varRef "v" ["v"]] initCallState)
        (some (Json.obj [("v", Json.num 5)])) =
      Except.ok
        (Expr.call "first" [Expr.varRef "v" ["v"]] ⟨GoFloat.finite 0, 1, true⟩) ∧
    evalFC rexMatch
        (Expr.call "last" [Expr.varRef "v" ["v"]] initCallState)
        (some (Json.obj [("v", Json.num 5)])) =
      Except.ok
        (Expr.call "last" [Expr.varRef "v" ["v"]] ⟨GoFloat.finite 0, 1, true⟩) :=
  ⟨rfl, rfl⟩

/-! ## C9 — operator precedence -/

/-- C9 counterexample.  The claim places `IN` and `NI` on the comparator
level; `Token.Precedence` in `token.go` has no case for them, so they
get the default `0`, not the comparators' `3`. -/
theorem in_ni_precedence_not_comparator_level :
    Token.precedence Token.IN ≠ Token.precedence Token.EQ ∧
    Token.precedence Token.NI ≠ Token.precedence Token.EQ ∧
    Token.precedence Token.IN = 0 ∧ Token.precedence Token.NI = 0 := by
  decide

/-- C9 amended.  The binding levels of `Token.Precedence`, from lowest
to highest: `OR`; `AND`; the eight comparators `EQ NEQ EQREGEX NEQREGEX
LT LTE GT GTE` (without `IN`/`NI`, which fall to the default `0`);
`ADD SUB`; `MUL DIV` — and the precedence-climbing parser accordingly
yields `ADD(1, MUL(2, 3))` for `1 + 2 * 3`, `ADD(MUL(1, 2), 3)` for
`1 * 2 + 3`, and left association `MUL(MUL(1, 2), 3)` for `1 * 2 * 3`. -/
theorem precedence_levels_and_examples :
    Token.precedence Token.OR = 1 ∧
    Token.precedence Token.AND = 2 ∧
    Token.precedence Token.EQ = 3 ∧
    Token.precedence Token.NEQ = 3 ∧
    Token.precedence Token.EQREGEX = 3 ∧
    Token.precedence Token.NEQREGEX = 3 ∧
    Token.precedence Token.LT = 3 ∧
    Token.precedence Token.LTE = 3 ∧
    Token.precedence Token.GT = 3 ∧
    Token.precedence Token.GTE = 3 ∧
    Token.precedence Token.ADD = 4 ∧
    Token.precedence Token.SUB = 4 ∧
    Token.precedence Token.MUL = 5 ∧
    Token.precedence Token.DIV = 5 ∧
    Token.precedence Token.IN = 0 ∧
    Token.precedence Token.NI = 0 ∧
    parseExprStr "1 + 2 * 3" =
      Except.ok (Expr.binary Token.ADD (Expr.intLit 1)
        (Expr.binary Token.MUL (Expr.intLit 2) (Expr.intLit 3))) ∧
    parseExprStr "1 * 2 + 3" =
      Except.ok (Expr.binary Token.ADD
        (Expr.binary Token.MUL (Expr.intLit 1) (Expr.intLit 2))
        (Expr.intLit 3)) ∧
    parseExprStr "1 * 2 * 3" =
      Except.ok (Expr.binary Token.MUL
        (Expr.binary Token.MUL (Expr.intLit 1) (Expr.intLit 2))
        (Expr.intLit 3)) := by
  refine ⟨rfl, rfl, rfl, rfl, rfl, rfl, rfl, rfl, rfl, rfl, rfl, rfl, rfl,
    rfl, rfl, rfl, ?_, ?_, ?_⟩ <;>
    simp [parseExprStr, parseExprToks, lex, lexLoop, parseBinary,
      parseBinaryLoop, parsePrimary, parseSegs, specPrecedence, parseIntLit,
      bind, Except.bind, isIdentChar, lookupKeyword] <;> decide

/-! ## C3 — call finalization and reset -/

/-- C3.  Reading a `Call` via `eval` returns the count as a float for
`count`, `result / count` for `avg` (and `0.0` when `count = 0`, which
the accumulation discipline guarantees via `result = 0` there), and the
running `result` for every other aggregate — and afterwards the
accumulator is reset to the initial state `(result = 0.0, count = 0,
first = true)`, so the statement can be re-used across batches. -/
theorem call_finalization (rexMatch : String → String → Bool)
    (name : String) (args : List Expr) (st : CallState) (js : Option Json)
    (hres : st.count = 0 → st.result = GoFloat.finite 0)
    (hnn : 0 ≤ st.count) :
    eval rexMatch (Expr.call name args st) js =
      Except.ok
        (Val.num
          (if name = "count" then GoFloat.finite (st.count : ℚ)
           else if name = "avg" then
             if st.count = 0 then GoFloat.finite 0
             else GoFloat.div st.result (GoFloat.finite (st.count : ℚ))
           else st.result),
         Expr.call name args initCallState) := by
  rcases eq_or_ne name "count" with h1 | h1
  · subst h1; simp [eval]
  · rcases eq_or_ne name "avg" with h2 | h2
    · subst h2
      rcases eq_or_lt_of_le hnn with h0 | h0
      · simp [eval, ← h0, hres h0.symm]
      · simp [eval, h0]
        exact (if_neg (by omega : ¬st.count = 0)).symm
    · simp [eval, h1, h2]

/-- C3 witness: a fresh `avg` call finalizes to `0.0` and stays in the
initial state. -/
theorem call_finalization_witness :
    eval (fun _ _ => false) (Expr.call "avg" [] ⟨GoFloat.finite 0, 0, true⟩)
        none =
      Except.ok (Val.num (GoFloat.finite 0), Expr.call "avg" [] initCallState) := by
  have h := call_finalization (fun _ _ => false) "avg" []
    ⟨GoFloat.finite 0, 0, true⟩ none (fun _ => rfl) (by decide)
  simpa using h

/-! ## C4 — comparators on incompatible run-time types -/

/-- C4 counterexample.  The claim says a comparison whose operands have
incompatible run-time types returns null for an ordering operator; but
`1.0 < "a"` evaluates to the boolean `false` (the numeric branch returns
`ok && …` for the ordering operators), not null. -/
theorem ordering_mismatch_returns_false :
    evalBinaryOp (fun _ _ => false) Token.LT
        (Val.num (GoFloat.finite 1)) (Val.str "a") =
      Except.ok (Val.bool false) ∧
    Val.bool false ≠ Val.null := by
  exact ⟨rfl, fun h => Val.noConfusion h⟩

/-- C4 amended.  Dispatch is on the left operand's run-time type: for a
boolean left operand, equality comparators with a non-boolean right
yield `false` and ordering comparators yield null; for a numeric left
operand with a non-numeric right, equality *and* ordering comparators
all yield `false`; for a string left operand with a non-string right,
equality yields `false` and ordering yields null; for a left operand of
any other run-time type (null, regex, list) every comparator yields
null. -/
theorem comparator_type_mismatch (rexMatch : String → String → Bool)
    (l r : Val) :
    (l.isBoolV = true → r.isBoolV = false →
      evalBinaryOp rexMatch Token.EQ l r = Except.ok (Val.bool false) ∧
      evalBinaryOp rexMatch Token.NEQ l r = Except.ok (Val.bool false) ∧
      evalBinaryOp rexMatch Token.LT l r = Except.ok Val.null ∧
      evalBinaryOp rexMatch Token.LTE l r = Except.ok Val.null ∧
      evalBinaryOp rexMatch Token.GT l r = Except.ok Val.null ∧
      evalBinaryOp rexMatch Token.GTE l r = Except.ok Val.null) ∧
    (l.isNumericV = true → r.isNumericV = false →
      evalBinaryOp rexMatch Token.EQ l r = Except.ok (Val.bool false) ∧
      evalBinaryOp rexMatch Token.NEQ l r = Except.ok (Val.bool false) ∧
      evalBinaryOp rexMatch Token.LT l r = Except.ok (Val.bool false) ∧
      evalBinaryOp rexMatch Token.LTE l r = Except.ok (Val.bool false) ∧
      evalBinaryOp rexMatch Token.GT l r = Except.ok (Val.bool false) ∧
      evalBinaryOp rexMatch Token.GTE l r = Except.ok (Val.bool false)) ∧
    (l.isStrV = true → r.isStrV = false →
      evalBinaryOp rexMatch Token.EQ l r = Except.ok (Val.bool false) ∧
      evalBinaryOp rexMatch Token.NEQ l r = Except.ok (Val.bool false) ∧
      evalBinaryOp rexMatch Token.LT l r = Except.ok Val.null ∧
      evalBinaryOp rexMatch Token.LTE l r = Except.ok Val.null ∧
      evalBinaryOp rexMatch Token.GT l r = Except.ok Val.null ∧
      evalBinaryOp rexMatch Token.GTE l r = Except.ok Val.null) ∧
    (l.isBoolV = false → l.isNumericV = false → l.isStrV = false →
      evalBinaryOp rexMatch Token.EQ l r = Except.ok Val.null ∧
      evalBinaryOp rexMatch Token.NEQ l r = Except.ok Val.null ∧
      evalBinaryOp rexMatch Token.LT l r = Except.ok Val.null ∧
      evalBinaryOp rexMatch Token.LTE l r = Except.ok Val.null ∧
      evalBinaryOp rexMatch Token.GT l r = Except.ok Val.null ∧
      evalBinaryOp rexMatch Token.GTE l r = Except.ok Val.null) := by
  cases l <;> cases r <;>
    simp [evalBinaryOp, Val.isBoolV, Val.isNumericV, Val.isStrV]

/-- C4 witness: `1.0 < "a"` is `false` (numeric left), `"s" < 3` is null
(string left), `false = 4` is `false` (boolean left), and `null = 'bar'`
is null (other left), each obtained from the amended theorem. -/
theorem comparator_type_mismatch_witness :
    evalBinaryOp (fun _ _ => false) Token.LT
        (Val.num (GoFloat.finite 1)) (Val.str "a") =
      Except.ok (Val.bool false) ∧
    evalBinaryOp (fun _ _ => false) Token.LT (Val.str "s") (Val.int 3) =
      Except.ok Val.null ∧
    evalBinaryOp (fun _ _ => false) Token.EQ (Val.bool false) (Val.int 4) =
      Except.ok (Val.bool false) ∧
    evalBinaryOp (fun _ _ => false) Token.EQ Val.null (Val.str "bar") =
      Except.ok Val.null := by
  refine ⟨?_, ?_, ?_, ?_⟩
  · exact ((comparator_type_mismatch (fun _ _ => false)
      (Val.num (GoFloat.finite 1)) (Val.str "a")).2.1 rfl rfl).2.2.1
  · exact ((comparator_type_mismatch (fun _ _ => false)
      (Val.str "s") (Val.int 3)).2.2.1 rfl rfl).2.2.1
  · exact ((comparator_type_mismatch (fun _ _ => false)
      (Val.bool false) (Val.int 4)).1 rfl rfl).1
  · exact ((comparator_type_mismatch (fun _ _ => false)
      Val.null (Val.str "bar")).2.2.2 rfl rfl rfl).1

/-! ## C5 — AND/OR dispatch -/

/-- C5 counterexample.  The claim says `AND`/`OR` yield null whenever
*either* operand is non-boolean; but `true AND 5` evaluates to the
boolean `false` (the boolean branch returns `ok && …`), not null. -/
theorem and_bool_nonbool_returns_false :
    evalBinaryOp (fun _ _ => false) Token.AND (Val.bool true) (Val.int 5) =
      Except.ok (Val.bool false) ∧
    Val.bool false ≠ Val.null := by
  exact ⟨rfl, fun h => Val.noConfusion h⟩

/-- C5 amended.  `AND`/`OR` yield null when the *left* operand is
non-boolean (so `4 AND 5` is null, with no truth-value coercion); with a
boolean left operand and a non-boolean right they yield the boolean
`false`; with two boolean operands they yield the conjunction or
disjunction. -/
theorem andOr_dispatch (rexMatch : String → String → Bool) (l r : Val) :
    (l.isBoolV = false →
      evalBinaryOp rexMatch Token.AND l r = Except.ok Val.null ∧
      evalBinaryOp rexMatch Token.OR l r = Except.ok Val.null) ∧
    (l.isBoolV = true → r.isBoolV = false →
      evalBinaryOp rexMatch Token.AND l r = Except.ok (Val.bool false) ∧
      evalBinaryOp rexMatch Token.OR l r = Except.ok (Val.bool false)) ∧
    (∀ a b : Bool, l = Val.bool a → r = Val.bool b →
      evalBinaryOp rexMatch Token.AND l r = Except.ok (Val.bool (a && b)) ∧
      evalBinaryOp rexMatch Token.OR l r = Except.ok (Val.bool (a || b))) := by
  cases l <;> cases r <;> simp [evalBinaryOp, Val.isBoolV]

/-- C5 witness: `4 AND 5` is null, `true AND 5` is `false`, and
`true AND false` / `true OR false` are the boolean connectives, each
obtained from the amended theorem. -/
theorem andOr_dispatch_witness :
    evalBinaryOp (fun _ _ => false) Token.AND (Val.int 4) (Val.int 5) =
      Except.ok Val.null ∧
    evalBinaryOp (fun _ _ => false) Token.AND (Val.bool true) (Val.int 5) =
      Except.ok (Val.bool false) ∧
    evalBinaryOp (fun _ _ => false) Token.AND (Val.bool true) (Val.bool false) =
      Except.ok (Val.bool false) ∧
    evalBinaryOp (fun _ _ => false) Token.OR (Val.bool true) (Val.bool false) =
      Except.ok (Val.bool true) := by
  refine ⟨?_, ?_, ?_, ?_⟩
  · exact ((andOr_dispatch (fun _ _ => false) (Val.int 4) (Val.int 5)).1 rfl).1
  · exact ((andOr_dispatch (fun _ _ => false) (Val.bool true)
      (Val.int 5)).2.1 rfl rfl).1
  · simpa using ((andOr_dispatch (fun _ _ => false) (Val.bool true)
      (Val.bool false)).2.2 true false rfl rfl).1
  · simpa using ((andOr_dispatch (fun _ _ => false) (Val.bool true)
      (Val.bool false)).2.2 true false rfl rfl).2

/-! ## C8 — print/re-parse round trip -/

/-- C8.  `SELECT sum(x) FROM foo GROUP BY a` parses to a statement with
one dimension; `SelectStatement.String` prints it as
`SELECT sum(x) FROM foo` — the `GROUP BY` clause is not emitted — and
that canonical text re-parses to the same statement *without* the
dimension, so the round trip loses the `GROUP BY` dimensions and the
re-parsed AST is not equal to the original (the difference is the
dimension list, not accumulator state). -/
theorem groupby_clause_lost_in_roundtrip :
    parseStatement "SELECT sum(x) FROM foo GROUP BY a" = Except.ok
      { fields := [⟨Expr.call "sum" [Expr.varRef "x" ["x"]] initCallState, ""⟩],
        sources := [⟨"foo"⟩], condition := none,
        dimensions := [⟨Expr.varRef "a" ["a"]⟩],
        isRawQuery := false, dedupe := false } ∧
    stmtString
      { fields := [⟨Expr.call "sum" [Expr.varRef "x" ["x"]] initCallState, ""⟩],
        sources := [⟨"foo"⟩], condition := none,
        dimensions := [⟨Expr.varRef "a" ["a"]⟩],
        isRawQuery := false, dedupe := false } =
      Except.ok "SELECT sum(x) FROM foo" ∧
    parseStatement "SELECT sum(x) FROM foo" = Except.ok
      { fields := [⟨Expr.call "sum" [Expr.varRef "x" ["x"]] initCallState, ""⟩],
        sources := [⟨"foo"⟩], condition := none,
        dimensions := [],
        isRawQuery := false, dedupe := false } := by
  refine ⟨?_, ?_, ?_⟩
  · simp [parseStatement, parseSelectToks, parseFieldsToks, parseFieldToks,
      parseExprToks, parseBinary, parseBinaryLoop, parsePrimary, parseCallArgs,
      parseSegs, parseDimsToks, lex, lexLoop, lookupKeyword, lowerStr,
      lowerChar, isIdentChar, specPrecedence, tokDesc, bind, Except.bind,
      initCallState] <;> decide
  · simp [stmtString, fieldsString, fieldString, exprString, exprStringList,
      quoteIdent, sourcesString, isValidIdent, lookupKeyword, lowerStr,
      lowerChar, isIdentChar, bind, Except.bind, List.mapM, List.mapM.loop]
    rfl
  · simp [parseStatement, parseSelectToks, parseFieldsToks, parseFieldToks,
      parseExprToks, parseBinary, parseBinaryLoop, parsePrimary, parseCallArgs,
      parseSegs, parseDimsToks, lex, lexLoop, lookupKeyword, lowerStr,
      lowerChar, isIdentChar, specPrecedence, tokDesc, bind, Except.bind,
      initCallState] <;> decide

/-! ## C10 — the driver only panics -/

/-- C10.  `EvalSQL` has no error return: a text that fails to parse
reaches `panic(err)`, and a syntactically valid select statement without
a `WHERE` clause reaches `selectStmt.Condition.String()` on a nil
interface — a nil-pointer panic — before the dimension check. -/
theorem evalSQL_panics (rexMatch : String → String → Bool) (now : Int)
    (sql : String) (docs : List Json) :
    (∀ e : ParseError, parseStatement sql = Except.error e →
      evalSQL rexMatch now sql docs =
        Except.error (GoPanic.parseFailure e.found e.expected)) ∧
    (∀ stmt : SelectStatement, parseStatement sql = Except.ok stmt →
      stmt.condition = none →
      evalSQL rexMatch now sql docs =
        Except.error GoPanic.nilPointerDereference) := by
  constructor
  · intro e he
    simp [evalSQL, he]
  · intro stmt hs hc
    simp [evalSQL, hs, hc, bind, Except.bind]

/-- C10 witness: the empty input fails to parse and panics with the
parse error; `SELECT sum(x) FROM foo` parses, has no `WHERE` clause, and
panics with the nil dereference. -/
theorem evalSQL_panics_witness :
    evalSQL (fun _ _ => false) 0 "" [] =
      Except.error (GoPanic.parseFailure "EOF" "SELECT") ∧
    evalSQL (fun _ _ => false) 0 "SELECT sum(x) FROM foo" [] =
      Except.error GoPanic.nilPointerDereference := by
  constructor
  · exact (evalSQL_panics (fun _ _ => false) 0 "" []).1 ⟨"EOF", "SELECT"⟩ rfl
  · exact (evalSQL_panics (fun _ _ => false) 0 "SELECT sum(x) FROM foo" []).2
      { fields := [⟨Expr.call "sum" [Expr.varRef "x" ["x"]] initCallState, ""⟩],
        sources := [⟨"foo"⟩], condition := none,
        dimensions := [],
        isRawQuery := false, dedupe := false }
      (by simp [parseStatement, parseSelectToks, parseFieldsToks,
        parseFieldToks, parseExprToks, parseBinary, parseBinaryLoop,
        parsePrimary, parseCallArgs, parseSegs, parseDimsToks, lex, lexLoop,
        lookupKeyword, lowerStr, lowerChar, isIdentChar, specPrecedence,
        tokDesc, bind, Except.bind, initCallState] <;> decide)
      rfl

/-! ## C7 — cloning -/

/-- C7 counterexample.  The claim says a cloned `Call`'s accumulator is
the initial state `(result = 0.0, count = 0, first = true)`; `CloneExpr`
rebuilds a `Call` from name and arguments only, so the clone carries the
struct's *zero* value — with `First = false`, not `true`. -/
theorem clone_call_state_not_initial :
    cloneExpr (Expr.call "max" [Expr.varRef "x" ["x"]]
        ⟨GoFloat.finite 3, 2, true⟩) =
      Except.ok (Expr.call "max" [Expr.varRef "x" ["x"]] zeroCallState) ∧
    zeroCallState ≠ initCallState := by
  constructor
  · simp [cloneExpr, cloneExprList, bind, Except.bind]
  · decide

/-- Lifting of `cloneExpr_spec` to argument lists (stated with the
member-wise inductive hypothesis so the expression-level proof can use
it inside `Expr.inductionOn`). -/
theorem cloneExprList_spec (args : List Expr)
    (IH : ∀ a ∈ args, ∀ a', cloneExpr a = Except.ok a' →
      stripStates a' = stripStates a ∧
      callStates a' = List.replicate (callStates a).length zeroCallState) :
    ∀ args', cloneExprList args = Except.ok args' →
      stripStatesList args' = stripStatesList args ∧
      callStatesList args' =
        List.replicate (callStatesList args).length zeroCallState := by
  induction args with
  | nil =>
      intro args' h
      simp [cloneExprList] at h
      subst h
      simp [stripStatesList, callStatesList]
  | cons a as ih =>
      intro args' h
      simp only [cloneExprList, bind, Except.bind] at h
      cases ha : cloneExpr a with
      | error e => rw [ha] at h; exact absurd h (by simp)
      | ok a1 =>
          rw [ha] at h
          cases has : cloneExprList as with
          | error e => rw [has] at h; exact absurd h (by simp)
          | ok as1 =>
              rw [has] at h
              simp only [Except.ok.injEq] at h
              subst h
              have h1 := IH a (by simp) a1 ha
              have h2 := ih (fun x hx => IH x (by simp [hx])) as1 has
              constructor
              · simp only [stripStatesList]
                rw [h1.1, h2.1]
              · simp only [callStatesList]
                rw [h1.2, h2.2, List.length_append, List.replicate_add]

/-- `CloneExpr` preserves the accumulator-erased structure and leaves
every `Call` accumulator at the struct's zero value. -/
theorem cloneExpr_spec :
    ∀ e : Expr, ∀ e', cloneExpr e = Except.ok e' →
      stripStates e' = stripStates e ∧
      callStates e' = List.replicate (callStates e).length zeroCallState := by
  intro e
  induction e using Expr.inductionOn with
  | hvar v s => intro e' h; simp [cloneExpr] at h; subst h; simp [stripStates, callStates]
  | hint n => intro e' h; simp [cloneExpr] at h; subst h; simp [stripStates, callStates]
  | hnum f => intro e' h; simp [cloneExpr] at h; subst h; simp [stripStates, callStates]
  | hstr s => intro e' h; simp [cloneExpr] at h; subst h; simp [stripStates, callStates]
  | hbool b => intro e' h; simp [cloneExpr] at h; subst h; simp [stripStates, callStates]
  | hregex p => intro e' h; simp [cloneExpr] at h; subst h; simp [stripStates, callStates]
  | hlist vs => intro e' h; simp [cloneExpr] at h
  | hnil => intro e' h; simp [cloneExpr] at h; subst h; simp [stripStates, callStates]
  | hparen e ihe =>
      intro e' h
      simp only [cloneExpr, bind, Except.bind] at h
      cases hi : cloneExpr e with
      | error _ => rw [hi] at h; exact absurd h (by simp)
      | ok i1 =>
          rw [hi] at h
          simp only [Except.ok.injEq] at h
          subst h
          have := ihe i1 hi
          simp [stripStates, callStates, this.1, this.2]
  | hbinary op l r ihl ihr =>
      intro e' h
      simp only [cloneExpr, bind, Except.bind] at h
      cases hl : cloneExpr l with
      | error _ => rw [hl] at h; exact absurd h (by simp)
      | ok l1 =>
          rw [hl] at h
          cases hr : cloneExpr r with
          | error _ => rw [hr] at h; exact absurd h (by simp)
          | ok r1 =>
              rw [hr] at h
              simp only [Except.ok.injEq] at h
              subst h
              have h1 := ihl l1 hl
              have h2 := ihr r1 hr
              constructor
              · simp only [stripStates]
                rw [h1.1, h2.1]
              · simp only [callStates]
                rw [h1.2, h2.2, List.length_append, List.replicate_add]
  | hcall n args st IH =>
      intro e' h
      simp only [cloneExpr, bind, Except.bind] at h
      cases ha : cloneExprList args with
      | error _ => rw [ha] at h; exact absurd h (by simp)
      | ok args1 =>
          rw [ha] at h
          simp only [Except.ok.injEq] at h
          subst h
          have := cloneExprList_spec args IH args1 ha
          constructor
          · simp only [stripStates]
            rw [this.1]
          · simp only [callStates]
            rw [this.2, List.length_cons, List.replicate_succ]

/-- Field-list analogue of `cloneExpr_spec`. -/
theorem cloneFields_spec :
    ∀ (fs : List Field) fs', cloneFields fs = Except.ok fs' →
      fs'.map (fun f => ({ f with expr := stripStates f.expr } : Field)) =
        fs.map (fun f => { f with expr := stripStates f.expr }) ∧
      fs'.flatMap (fun f => callStates f.expr) =
        List.replicate (fs.flatMap (fun f => callStates f.expr)).length
          zeroCallState := by
  intro fs
  induction fs with
  | nil =>
      intro fs' h
      simp [cloneFields] at h
      subst h
      simp
  | cons f fs ih =>
      intro fs' h
      simp only [cloneFields, bind, Except.bind] at h
      cases he : cloneExpr f.expr with
      | error _ => rw [he] at h; exact absurd h (by simp)
      | ok e1 =>
          rw [he] at h
          cases hr : cloneFields fs with
          | error _ => rw [hr] at h; exact absurd h (by simp)
          | ok rest =>
              rw [hr] at h
              simp only [Except.ok.injEq] at h
              subst h
              have h1 := cloneExpr_spec f.expr e1 he
              have h2 := ih rest hr
              constructor
              · simp only [List.map_cons]
                rw [h2.1]
                simp [h1.1]
              · simp only [List.flatMap_cons]
                rw [h1.2, h2.2, List.length_append, List.replicate_add]

/-- Dimension-list analogue of `cloneExpr_spec`. -/
theorem cloneDims_spec :
    ∀ (ds : List Dimension) ds', cloneDims ds = Except.ok ds' →
      ds'.map (fun d => (⟨stripStates d.expr⟩ : Dimension)) =
        ds.map (fun d => ⟨stripStates d.expr⟩) ∧
      ds'.flatMap (fun d => callStates d.expr) =
        List.replicate (ds.flatMap (fun d => callStates d.expr)).length
          zeroCallState := by
  intro ds
  induction ds with
  | nil =>
      intro ds' h
      simp [cloneDims] at h
      subst h
      simp
  | cons d ds ih =>
      intro ds' h
      simp only [cloneDims, bind, Except.bind] at h
      cases he : cloneExpr d.expr with
      | error _ => rw [he] at h; exact absurd h (by simp)
      | ok e1 =>
          rw [he] at h
          cases hr : cloneDims ds with
          | error _ => rw [hr] at h; exact absurd h (by simp)
          | ok rest =>
              rw [hr] at h
              simp only [Except.ok.injEq] at h
              subst h
              have h1 := cloneExpr_spec d.expr e1 he
              have h2 := ih rest hr
              constructor
              · simp only [List.map_cons]
                rw [h2.1]
                simp [h1.1]
              · simp only [List.flatMap_cons]
                rw [h1.2, h2.2, List.length_append, List.replicate_add]

/-- Condition analogue of `cloneExpr_spec`. -/
theorem cloneCondition_spec :
    ∀ (c : Option Expr) c', cloneCondition c = Except.ok c' →
      c'.map stripStates = c.map stripStates ∧
      (c'.map callStates).getD [] =
        List.replicate ((c.map callStates).getD []).length zeroCallState := by
  intro c c' h
  cases c with
  | none =>
      simp [cloneCondition] at h
      subst h
      simp
  | some e =>
      simp only [cloneCondition, bind, Except.bind] at h
      cases he : cloneExpr e with
      | error _ => rw [he] at h; exact absurd h (by simp)
      | ok e1 =>
          rw [he] at h
          simp only [Except.ok.injEq] at h
          subst h
          have h1 := cloneExpr_spec e e1 he
          simp [h1.1, h1.2]

/-- A source list rebuilt from the database names is the same list. -/
theorem cloneSources_id (ms : List Measurement) :
    ms.map (fun m => (⟨m.database⟩ : Measurement)) = ms := by
  induction ms with
  | nil => rfl
  | cons m ms ih => cases m; simp [ih]

/-- C7 amended.  A successful `Clone` preserves the whole statement up
to accumulator state (same fields, aliases, sources, condition,
dimensions and flags after erasing accumulators) and replaces *every*
`Call` accumulator with the struct's zero value `(result = 0.0,
count = 0, first = false)` — not the parser's initial state, whose
`first` flag is `true`.  The clone's accumulators are therefore fresh
values independent of the source's, so accumulating into the clone
cannot change the source. -/
theorem clone_preserves_structure_and_zeroes_state
    (s sc : SelectStatement) (h : cloneStmt s = Except.ok sc) :
    stripStmt sc = stripStmt s ∧
    stmtCallStates sc =
      List.replicate (stmtCallStates s).length zeroCallState := by
  simp only [cloneStmt, bind, Except.bind] at h
  cases hc : cloneCondition s.condition with
  | error _ => rw [hc] at h; exact absurd h (by simp)
  | ok cond =>
      rw [hc] at h
      cases hf : cloneFields s.fields with
      | error _ => rw [hf] at h; exact absurd h (by simp)
      | ok fields' =>
          rw [hf] at h
          cases hd : cloneDims s.dimensions with
          | error _ => rw [hd] at h; exact absurd h (by simp)
          | ok dims' =>
              rw [hd] at h
              simp only [Except.ok.injEq] at h
              subst h
              have h1 := cloneCondition_spec s.condition cond hc
              have h2 := cloneFields_spec s.fields fields' hf
              have h3 := cloneDims_spec s.dimensions dims' hd
              constructor
              · simp only [stripStmt]
                rw [cloneSources_id]
                congr 1
                · exact h2.1
                · simpa using h1.1
                · simpa using h3.1
              · simp only [stmtCallStates]
                rw [h2.2, h3.2]
                have hcd := h1.2
                simp only at hcd
                rw [hcd]
                rw [List.length_append, List.length_append,
                  List.replicate_add, List.replicate_add]

/-- C7 witness: a concrete statement holding one `max` call with a
non-trivial accumulator clones to the same structure with the zeroed
accumulator. -/
theorem clone_preserves_structure_witness :
    stripStmt
        { fields := [⟨Expr.call "max" [Expr.varRef "x" ["x"]] zeroCallState, ""⟩],
          sources := [⟨"m"⟩],
          condition := some (Expr.binary Token.EQ
            (Expr.varRef "uid" ["uid"]) (Expr.intLit 1)),
          dimensions := [⟨Expr.varRef "a" ["a"]⟩],
          isRawQuery := false, dedupe := false } =
      stripStmt
        { fields := [⟨Expr.call "max" [Expr.varRef "x" ["x"]]
            ⟨GoFloat.finite 3, 2, true⟩, ""⟩],
          sources := [⟨"m"⟩],
          condition := some (Expr.binary Token.EQ
            (Expr.varRef "uid" ["uid"]) (Expr.intLit 1)),
          dimensions := [⟨Expr.varRef "a" ["a"]⟩],
          isRawQuery := false, dedupe := false } ∧
    stmtCallStates
        { fields := [⟨Expr.call "max" [Expr.varRef "x" ["x"]] zeroCallState, ""⟩],
          sources := [⟨"m"⟩],
          condition := some (Expr.binary Token.EQ
            (Expr.varRef "uid" ["uid"]) (Expr.intLit 1)),
          dimensions := [⟨Expr.varRef "a" ["a"]⟩],
          isRawQuery := false, dedupe := false } = [zeroCallState] := by
  have h := clone_preserves_structure_and_zeroes_state
    { fields := [⟨Expr.call "max" [Expr.varRef "x" ["x"]]
        ⟨GoFloat.finite 3, 2, true⟩, ""⟩],
      sources := [⟨"m"⟩],
      condition := some (Expr.binary Token.EQ
        (Expr.varRef "uid" ["uid"]) (Expr.intLit 1)),
      dimensions := [⟨Expr.varRef "a" ["a"]⟩],
      isRawQuery := false, dedupe := false }
    { fields := [⟨Expr.call "max" [Expr.varRef "x" ["x"]] zeroCallState, ""⟩],
      sources := [⟨"m"⟩],
      condition := some (Expr.binary Token.EQ
        (Expr.varRef "uid" ["uid"]) (Expr.intLit 1)),
      dimensions := [⟨Expr.varRef "a" ["a"]⟩],
      isRawQuery := false, dedupe := false }
    (by simp [cloneStmt, cloneCondition, cloneFields, cloneDims, cloneExpr,
      cloneExprList, bind, Except.bind])
  refine ⟨h.1, ?_⟩
  rw [h.2]
  have : (stmtCallStates
      { fields := [⟨Expr.call "max" [Expr.varRef "x" ["x"]]
          ⟨GoFloat.finite 3, 2, true⟩, ""⟩],
        sources := [⟨"m"⟩],
        condition := some (Expr.binary Token.EQ
          (Expr.varRef "uid" ["uid"]) (Expr.intLit 1)),
        dimensions := [⟨Expr.varRef "a" ["a"]⟩],
        isRawQuery := false, dedupe := false }).length = 1 := by
    simp [stmtCallStates, callStates, callStatesList]
  rw [this]
  rfl

/-! ## C6 — the group flattener -/

/-- Evaluating a call-free expression returns it unchanged (only `Call`
accumulators are mutated in place). -/
theorem eval_callFree_fixed (rexMatch : String → String → Bool) :
    ∀ e : Expr, callFree e = true →
      ∀ js v e', eval rexMatch e js = Except.ok (v, e') → e' = e := by
  intro e
  induction e using Expr.inductionOn with
  | hvar v s =>
      intro _ js v' e' h
      cases js with
      | none => exact absurd h (by simp [eval])
      | some j => simp [eval] at h; exact h.2.symm
  | hint n => intro _ js v' e' h; simp [eval] at h; exact h.2.symm
  | hnum f => intro _ js v' e' h; simp [eval] at h; exact h.2.symm
  | hstr s => intro _ js v' e' h; simp [eval] at h; exact h.2.symm
  | hbool b => intro _ js v' e' h; simp [eval] at h; exact h.2.symm
  | hregex p => intro _ js v' e' h; simp [eval] at h; exact h.2.symm
  | hlist vs => intro _ js v' e' h; simp [eval] at h; exact h.2.symm
  | hnil => intro _ js v' e' h; simp [eval] at h; exact h.2.symm
  | hcall n args st _ => intro hcf; exact absurd hcf (by simp [callFree])
  | hparen e ihe =>
      intro hcf js v' e' h
      simp only [callFree] at hcf
      simp only [eval, bind, Except.bind] at h
      cases hi : eval rexMatch e js with
      | error _ => rw [hi] at h; exact absurd h (by simp)
      | ok p =>
          rw [hi] at h
          simp only [Except.ok.injEq] at h
          obtain ⟨e1, e2⟩ := Prod.mk.injEq .. ▸ h
          cases h
          have := ihe hcf js p.1 p.2 (by rw [hi])
          simp [this]
  | hbinary op l r ihl ihr =>
      intro hcf js v' e' h
      simp only [callFree, Bool.and_eq_true] at hcf
      simp only [eval, bind, Except.bind] at h
      cases hl : eval rexMatch l js with
      | error _ => rw [hl] at h; exact absurd h (by simp)
      | ok pl =>
          rw [hl] at h
          cases hr : eval rexMatch r js with
          | error _ => rw [hr] at h; exact absurd h (by simp)
          | ok pr =>
              rw [hr] at h
              dsimp only at h
              cases hop : evalBinaryOp rexMatch op pl.1 pr.1 with
              | error _ => rw [hop] at h; exact absurd h (by simp)
              | ok v0 =>
                  rw [hop] at h
                  simp only [Except.ok.injEq] at h
                  cases h
                  have e1 := ihl hcf.1 js pl.1 pl.2 (by rw [hl])
                  have e2 := ihr hcf.2 js pr.1 pr.2 (by rw [hr])
                  simp [e1, e2]

/-- One flattener dimension step, after the seed: conjoin the (amended)
claim equality onto the running root. -/
theorem flatDimStep_spec (rexMatch : String → String → Bool) (j : Json)
    (d : Dimension) (hd : callFree d.expr = true) (root : Expr)
    (ds : List Dimension) (hroot : exprLHSIsGoNil root = false) :
    flatDimStep rexMatch j (root, ds) d =
      (claimDimEquality rexMatch d j).map
        (fun eq => (Expr.binary Token.AND root eq, ds ++ [d])) := by
  cases d with
  | mk de =>
      simp only [flatDimStep, claimDimEquality, bind, Except.bind, Except.map]
      cases he : eval rexMatch de (some j) with
      | error _ => rfl
      | ok p =>
          have hfix := eval_callFree_fixed rexMatch de hd (some j) p.1 p.2
            (by rw [he])
          dsimp only
          rw [hroot]
          simp [hfix]

/-- One flattener dimension step at the dummy root: seed with
`true AND …`. -/
theorem flatDimStep_at_dummy (rexMatch : String → String → Bool) (j : Json)
    (d : Dimension) (hd : callFree d.expr = true) (root : Expr)
    (ds : List Dimension) (hroot : exprLHSIsGoNil root = true) :
    flatDimStep rexMatch j (root, ds) d =
      (claimDimEquality rexMatch d j).map
        (fun eq => (Expr.binary Token.AND (Expr.boolLit true) eq, ds ++ [d])) := by
  cases d with
  | mk de =>
      simp only [flatDimStep, claimDimEquality, bind, Except.bind, Except.map]
      cases he : eval rexMatch de (some j) with
      | error _ => rfl
      | ok p =>
          have hfix := eval_callFree_fixed rexMatch de hd (some j) p.1 p.2
            (by rw [he])
          dsimp only
          rw [hroot]
          simp [hfix]

/-- A conjunction node never looks like the dummy root (its `LHS` is
the previous non-nil root or the boolean seed). -/
theorem exprLHSIsGoNil_and (root eq : Expr) (hne : root ≠ Expr.goNil) :
    exprLHSIsGoNil (Expr.binary Token.AND root eq) = false := by
  cases root <;> simp [exprLHSIsGoNil] at hne ⊢

/-- The flattener's dimension fold, from any seeded root, computes the
claim's left fold of conjunctions and leaves the dimension list
unchanged (appended in order). -/
theorem flatFold_spec (rexMatch : String → String → Bool) (j : Json) :
    ∀ (dims : List Dimension), (∀ d ∈ dims, callFree d.expr = true) →
      ∀ (root : Expr) (ds : List Dimension), root ≠ Expr.goNil →
        exprLHSIsGoNil root = false →
        dims.foldlM (flatDimStep rexMatch j) (root, ds) =
          (dims.mapM (fun d => claimDimEquality rexMatch d j)).map
            (fun eqs => (eqs.foldl (Expr.binary Token.AND) root, ds ++ dims)) := by
  intro dims
  induction dims with
  | nil =>
      intro _ root ds _ _
      simp [List.foldlM, List.mapM, List.mapM.loop, Except.map, pure,
        Except.pure]
  | cons d rest ih =>
      intro hcf root ds hne hroot
      have hd : callFree d.expr = true := hcf d (by simp)
      rw [List.mapM_cons]
      simp only [List.foldlM, bind, Except.bind]
      rw [flatDimStep_spec rexMatch j d hd root ds hroot]
      cases he : claimDimEquality rexMatch d j with
      | error _ => simp [Except.map]
      | ok eq =>
          simp only [Except.map]
          rw [ih (fun x hx => hcf x (by simp [hx])) (Expr.binary Token.AND root eq)
            (ds ++ [d]) (by intro hh; exact Expr.noConfusion hh)
            (exprLHSIsGoNil_and root eq hne)]
          cases hm : rest.mapM (fun d => claimDimEquality rexMatch d j) with
          | error _ => simp [Except.map]
          | ok eqs =>
              simp [Except.map, pure, Except.pure, List.foldl_cons]

/-- For a non-empty, call-free dimension list and a present `WHERE`
predicate, a document's flattener pass computes exactly the claim's
predicate (with the amended equality order) and returns the dimension
list unchanged. -/
theorem flatDocPredicate_spec (rexMatch : String → String → Bool)
    (j : Json) (c : Expr) :
    ∀ dims : List Dimension, dims ≠ [] →
      (∀ d ∈ dims, callFree d.expr = true) →
      flatDocPredicate rexMatch dims (some c) j =
        (claimGroupPredicate rexMatch claimDimEquality dims c j).map
          (fun p => (p, dims)) := by
  intro dims hne hcf
  cases dims with
  | nil => exact absurd rfl hne
  | cons d rest =>
      have hd : callFree d.expr = true := hcf d (by simp)
      simp only [flatDocPredicate, claimGroupPredicate, bind, Except.bind]
      rw [List.mapM_cons]
      simp only [List.foldlM, bind, Except.bind]
      rw [flatDimStep_at_dummy rexMatch j d hd _ [] (by rfl)]
      cases he : claimDimEquality rexMatch d j with
      | error _ => simp [Except.map]
      | ok eq =>
          simp only [Except.map]
          simp only [List.nil_append]
          rw [flatFold_spec rexMatch j rest
            (fun x hx => hcf x (by simp [hx]))
            (Expr.binary Token.AND (Expr.boolLit true) eq) [d]
            (by intro hh; exact Expr.noConfusion hh)
            (by simp [exprLHSIsGoNil])]
          cases hm : rest.mapM (fun x => claimDimEquality rexMatch x j) with
          | error _ => simp [Except.map]
          | ok eqs =>
              simp [Except.map, pure, Except.pure, List.foldl_cons]

/-- One document step of the flattener loop, under the theorem's
hypotheses: it performs the claim's step and leaves the statement
unchanged. -/
theorem flatGroupStep_spec (rexMatch : String → String → Bool)
    (s : SelectStatement) (c : Expr) (hc : s.condition = some c)
    (hne : s.dimensions ≠ [])
    (hcf : ∀ d ∈ s.dimensions, callFree d.expr = true)
    (g : List (String × Expr)) (j : Json) :
    flatGroupStep rexMatch (g, s) j =
      (claimGroupStep rexMatch claimDimEquality s.dimensions c g j).map
        (fun g' => (g', s)) := by
  simp only [flatGroupStep, claimGroupStep, bind, Except.bind]
  rw [hc, flatDocPredicate_spec rexMatch j c s.dimensions hne hcf]
  cases hp : claimGroupPredicate rexMatch claimDimEquality s.dimensions c j with
  | error _ => simp [Except.map]
  | ok pred =>
      simp only [Except.map]
      cases hk : exprString pred with
      | error _ => simp
      | ok key =>
          simp only [Except.ok.injEq, Prod.mk.injEq]
          rw [← hc]
          exact ⟨trivial, rfl⟩

/-- The flattener's document fold, against the claim's fold. -/
theorem flatDocsFold_spec (rexMatch : String → String → Bool)
    (s : SelectStatement) (c : Expr) (hc : s.condition = some c)
    (hne : s.dimensions ≠ [])
    (hcf : ∀ d ∈ s.dimensions, callFree d.expr = true) :
    ∀ (docs : List Json) (g : List (String × Expr)),
      docs.foldlM (flatGroupStep rexMatch) (g, s) =
        (docs.foldlM
          (claimGroupStep rexMatch claimDimEquality s.dimensions c) g).map
          (fun g' => (g', s)) := by
  intro docs
  induction docs with
  | nil => intro g; simp [List.foldlM, Except.map, pure, Except.pure]
  | cons j rest ih =>
      intro g
      simp only [List.foldlM, bind, Except.bind]
      rw [flatGroupStep_spec rexMatch s c hc hne hcf g j]
      cases hstep : claimGroupStep rexMatch claimDimEquality s.dimensions c g j with
      | error _ => simp [Except.map]
      | ok g1 =>
          simp only [Except.map]
          exact ih g1

/-- C6 amended.  For a statement with a `WHERE` predicate and a
non-empty, call-free dimension list, `FlatStatByGroup` is exactly the
claim's flattener with one amendment: the per-dimension equality places
the wrapped value literal on the *left* and the dimension expression on
the *right* (`value_literal EQ dim_expr`); the predicate still starts
from the seed `true`, conjoins one equality per dimension in order,
conjoins the original `WHERE` predicate as the final term, and the
cloned statement carrying the predicate is stored under the predicate's
canonical printed form. -/
theorem flatStatByGroup_matches_claim (rexMatch : String → String → Bool)
    (s : SelectStatement) (c : Expr) (docs : List Json)
    (hc : s.condition = some c) (hne : s.dimensions ≠ [])
    (hcf : ∀ d ∈ s.dimensions, callFree d.expr = true) :
    flatStatByGroup rexMatch s docs =
      claimFlatByGroup rexMatch claimDimEquality s c docs := by
  simp only [flatStatByGroup, claimFlatByGroup, bind, Except.bind]
  rw [flatDocsFold_spec rexMatch s c hc hne hcf docs []]
  cases hg : docs.foldlM
      (claimGroupStep rexMatch claimDimEquality s.dimensions c) [] with
  | error _ => simp [Except.map]
  | ok g => simp [Except.map]

/-- C6 counterexample.  The claim says each conjunct is
`dim_expr EQ value_literal`; the code builds `value_literal EQ
dim_expr`.  For the document `{a: "v"}` grouped by `a` with `WHERE
uid = 1`, the code's partition key reads `true AND 'v' = a AND uid = 1`
while the claim's builder would produce `true AND a = 'v' AND uid = 1` —
different predicates and different keys. -/
theorem flat_literal_on_left_counterexample :
    (flatStatByGroup (fun _ _ => false)
        { fields := [⟨Expr.call "sum" [Expr.varRef "x" ["x"]] initCallState, ""⟩],
          sources := [⟨"p"⟩],
          condition := some (Expr.binary Token.EQ
            (Expr.varRef "uid" ["uid"]) (Expr.intLit 1)),
          dimensions := [⟨Expr.varRef "a" ["a"]⟩],
          isRawQuery := false, dedupe := false }
        [Json.obj [("a", Json.str "v")]]).map (fun l => l.map Prod.fst) =
      Except.ok ["true AND \x27v\x27 = a AND uid = 1"] ∧
    (claimFlatByGroup (fun _ _ => false) claimDimEqualityOrig
        { fields := [⟨Expr.call "sum" [Expr.varRef "x" ["x"]] initCallState, ""⟩],
          sources := [⟨"p"⟩],
          condition := some (Expr.binary Token.EQ
            (Expr.varRef "uid" ["uid"]) (Expr.intLit 1)),
          dimensions := [⟨Expr.varRef "a" ["a"]⟩],
          isRawQuery := false, dedupe := false }
        (Expr.binary Token.EQ (Expr.varRef "uid" ["uid"]) (Expr.intLit 1))
        [Json.obj [("a", Json.str "v")]]).map (fun l => l.map Prod.fst) =
      Except.ok ["true AND a = \x27v\x27 AND uid = 1"] ∧
    ("true AND \x27v\x27 = a AND uid = 1" : String) ≠
      "true AND a = \x27v\x27 AND uid = 1" := by
  refine ⟨?_, ?_, by decide⟩
  · simp [flatStatByGroup, flatGroupStep, flatDocPredicate, flatDimStep,
      claimDimEquality, eval, varRefEval, jsonWalk, wrapLit, exprLHSIsGoNil,
      exprString, exprStringList, quoteIdent, quoteString, isValidIdent,
      lookupKeyword, lowerStr, lowerChar, isIdentChar, escapeIdentSegment,
      upsert, cloneStmt, cloneCondition, cloneFields, cloneDims, cloneExpr,
      cloneExprList, Token.str, List.foldlM, bind, Except.bind, Except.map,
      pure, Except.pure]
    rfl
  · simp [claimFlatByGroup, claimGroupStep, claimGroupPredicate,
      claimDimEqualityOrig, eval, varRefEval, jsonWalk, wrapLit,
      exprString, exprStringList, quoteIdent, quoteString, isValidIdent,
      lookupKeyword, lowerStr, lowerChar, isIdentChar, escapeIdentSegment,
      upsert, cloneStmt, cloneCondition, cloneFields, cloneDims, cloneExpr,
      cloneExprList, Token.str, List.foldlM, List.mapM, List.mapM.loop,
      bind, Except.bind, Except.map, pure, Except.pure]
    rfl

/-- C6 witness: the amended theorem applied to the concrete statement
`SELECT sum(x) FROM p WHERE uid = 1 GROUP BY a` and the document
`{a: "v"}`. -/
theorem flatStatByGroup_matches_claim_witness :
    flatStatByGroup (fun _ _ => false)
        { fields := [⟨Expr.call "sum" [Expr.varRef "x" ["x"]] initCallState, ""⟩],
          sources := [⟨"p"⟩],
          condition := some (Expr.binary Token.EQ
            (Expr.varRef "uid" ["uid"]) (Expr.intLit 1)),
          dimensions := [⟨Expr.varRef "a" ["a"]⟩],
          isRawQuery := false, dedupe := false }
        [Json.obj [("a", Json.str "v")]] =
      claimFlatByGroup (fun _ _ => false) claimDimEquality
        { fields := [⟨Expr.call "sum" [Expr.varRef "x" ["x"]] initCallState, ""⟩],
          sources := [⟨"p"⟩],
          condition := some (Expr.binary Token.EQ
            (Expr.varRef "uid" ["uid"]) (Expr.intLit 1)),
          dimensions := [⟨Expr.varRef "a" ["a"]⟩],
          isRawQuery := false, dedupe := false }
        (Expr.binary Token.EQ (Expr.varRef "uid" ["uid"]) (Expr.intLit 1))
        [Json.obj [("a", Json.str "v")]] :=
  flatStatByGroup_matches_claim (fun _ _ => false) _ _ _
    rfl (by simp) (by intro d hd; simp at hd; subst hd; rfl)

end Jepl
